import Mathlib

/-!
A verification development for the `rasterflow` repository (Rust).

Embedding conventions:
* Rust `f32` values are modeled by `Rasterflow.F`: a finite value is an exact
  rational, `F.nan` models IEEE NaN.  Floating-point rounding and the
  infinities are outside the scope of this model (no verified statement
  depends on either: every numeric fact proved below is about exact zeroes,
  NaN propagation, or NaN (in)equality, which IEEE 754 arithmetic realizes
  exactly).  `f32` square root is kept as a parameter (`SqrtModel`) carrying
  the only property the development uses, `sqrt 0 = 0`.
* Rust `Result`/`Option<MeshError>` returns together with the possibility of
  a panic (out-of-bounds slice indexing, `todo!()`) are modeled by the three
  valued type `Res`.
* Machine integers: `u32` values are natural numbers; the wrapping
  subtraction `w - 1` performed by `process_obj_faces` on a parsed `u32` is
  modeled explicitly as `(w + (2^32 - 1)) % 2^32` (release-profile wrapping
  semantics).
* Text lines of an OBJ file are modeled as their whitespace-separated token
  lists, each token a `List Char`; `format!` with single spaces and
  `split_ascii_whitespace` are mutually inverse on nonempty whitespace-free
  tokens, which all tokens produced by `write_obj` are.
-/

set_option maxRecDepth 100000

namespace Rasterflow

/-- Model of Rust `f32` values: a finite value is an exact rational, `nan`
models IEEE NaN.  (See the header comment for the scope of the model.) -/
inductive F where
  | fin : ℚ → F
  | nan : F
deriving DecidableEq

/-- Rust `f32 == f32` (`PartialEq`): NaN compares unequal to everything,
itself included; finite values compare by value. -/
def feq : F → F → Bool
  | F.fin a, F.fin b => a == b
  | _, _ => false

/-- A 3-component coordinate (`nalgebra::Point3<f32>` / `Vector3<f32>`); the
same representation serves points, vectors and unit vectors. -/
structure Point3 where
  x : F
  y : F
  z : F
deriving DecidableEq

/-- `nalgebra` componentwise `PartialEq` on 3-component values, each component
compared with `f32` equality. -/
def point_eq (p q : Point3) : Bool :=
  feq p.x q.x && feq p.y q.y && feq p.z q.z

/-- `Tetrahedron` (src/geometry/discmesh.rs): a fixed-size array of 4
3-D points. -/
structure Tetrahedron where
  pts : Fin 4 → Point3

/-- The compile-time table of the 24 index permutations of 4 elements
(src/geometry/discmesh.rs, `PERM4`). -/
def PERM4 : List (Fin 4 → Fin 4) :=
  [![0, 1, 2, 3],
   ![0, 1, 3, 2],
   ![0, 2, 1, 3],
   ![0, 2, 3, 1],
   ![0, 3, 1, 2],
   ![0, 3, 2, 1],
   ![1, 0, 2, 3],
   ![1, 0, 3, 2],
   ![1, 2, 0, 3],
   ![1, 2, 3, 0],
   ![1, 3, 0, 2],
   ![1, 3, 2, 0],
   ![2, 0, 1, 3],
   ![2, 0, 3, 1],
   ![2, 1, 0, 3],
   ![2, 1, 3, 0],
   ![2, 3, 0, 1],
   ![2, 3, 1, 0],
   ![3, 0, 1, 2],
   ![3, 0, 2, 1],
   ![3, 1, 0, 2],
   ![3, 1, 2, 0],
   ![3, 2, 0, 1],
   ![3, 2, 1, 0]]

/-- `impl PartialEq for Tetrahedron` (src/geometry/discmesh.rs):
`PERM4.iter().any(|x| (0..4).all(|i| self.0[x[i]].eq(&other.0[i])))`. -/
def Tetrahedron.eq (a b : Tetrahedron) : Bool :=
  PERM4.any (fun x => (List.finRange 4).all (fun i => point_eq (a.pts (x i)) (b.pts i)))

/-- Reordering the vertex tuple of a tetrahedron by an index table: the new
tetrahedron's vertex at position `i` is the old one's vertex at position
`p i`. -/
def permute_tet (p : Fin 4 → Fin 4) (t : Tetrahedron) : Tetrahedron :=
  ⟨fun i => t.pts (p i)⟩

/-- `true` iff the value is NaN. -/
def is_nan : F → Bool
  | F.nan => true
  | _ => false

/-- `true` iff no component of the point is NaN. -/
def point_no_nan (p : Point3) : Bool :=
  !is_nan p.x && !is_nan p.y && !is_nan p.z

/-- `true` iff none of the 12 coordinate components of the tetrahedron is
NaN. -/
def tet_no_nan (t : Tetrahedron) : Bool :=
  (List.finRange 4).all (fun i => point_no_nan (t.pts i))

/- Basic facts about the `f32` equality model. -/

theorem feq_eq_true_iff (a b : F) :
    feq a b = true ↔ ∃ q : ℚ, a = F.fin q ∧ b = F.fin q := by
  cases a <;> cases b <;> simp [feq]
  exact eq_comm

theorem feq_imp_eq {a b : F} (h : feq a b = true) : a = b := by
  rcases (feq_eq_true_iff a b).mp h with ⟨q, rfl, rfl⟩
  rfl

theorem feq_symm (a b : F) : feq a b = feq b a := by
  cases a <;> cases b <;> simp [feq]
  exact eq_comm

theorem feq_trans {a b c : F} (hab : feq a b = true) (hbc : feq b c = true) :
    feq a c = true := by
  rw [feq_imp_eq hab]; exact hbc

theorem feq_self_iff (a : F) : feq a a = true ↔ is_nan a = false := by
  cases a <;> simp [feq, is_nan]

theorem point_eq_imp_eq {p q : Point3} (h : point_eq p q = true) : p = q := by
  simp only [point_eq, Bool.and_eq_true] at h
  obtain ⟨⟨hx, hy⟩, hz⟩ := h
  cases p; cases q
  simp only [Point3.mk.injEq]
  exact ⟨feq_imp_eq hx, feq_imp_eq hy, feq_imp_eq hz⟩

theorem point_eq_symm (p q : Point3) : point_eq p q = point_eq q p := by
  simp [point_eq, feq_symm p.x q.x, feq_symm p.y q.y, feq_symm p.z q.z]

theorem point_eq_trans {p q r : Point3} (hpq : point_eq p q = true)
    (hqr : point_eq q r = true) : point_eq p r = true := by
  rw [point_eq_imp_eq hpq]; exact hqr

theorem point_eq_self_iff (p : Point3) :
    point_eq p p = true ↔ point_no_nan p = true := by
  simp [point_eq, point_no_nan, feq_self_iff]

/- The permutation table is exactly the set of bijections of `Fin 4`. -/

theorem perm4_bijective : ∀ x ∈ PERM4, Function.Bijective x := by decide

theorem bijective_mem_perm4 :
    ∀ x : Fin 4 → Fin 4, Function.Bijective x → x ∈ PERM4 := by decide

/-- The Rust equality test succeeds exactly when some permutation of the four
positions matches the two vertex tuples pointwise under `f32` equality. -/
theorem tet_eq_true_iff (a b : Tetrahedron) :
    Tetrahedron.eq a b = true ↔
      ∃ π : Equiv.Perm (Fin 4), ∀ i, point_eq (a.pts (π i)) (b.pts i) = true := by
  constructor
  · intro h
    rcases List.any_eq_true.mp h with ⟨x, hx, hall⟩
    rw [List.all_eq_true] at hall
    refine ⟨Equiv.ofBijective x (perm4_bijective x hx), fun i => ?_⟩
    exact hall i (List.mem_finRange i)
  · rintro ⟨π, hπ⟩
    refine List.any_eq_true.mpr ⟨fun i => π i, bijective_mem_perm4 _ π.bijective, ?_⟩
    rw [List.all_eq_true]
    intro i _
    exact hπ i

/-- The unordered 4-element multiset of vertex positions of a tetrahedron. -/
def tet_multiset (t : Tetrahedron) : Multiset Point3 :=
  ((List.finRange 4).map t.pts : List Point3)

theorem perm4_map_finRange :
    ∀ x ∈ PERM4, ((List.finRange 4).map x).Perm (List.finRange 4) := by decide

theorem point_eq_imp_no_nan_right {p q : Point3} (h : point_eq p q = true) :
    point_no_nan q = true := by
  simp only [point_eq, Bool.and_eq_true] at h
  obtain ⟨⟨hx, hy⟩, hz⟩ := h
  rcases (feq_eq_true_iff _ _).mp hx with ⟨qx, -, hqx⟩
  rcases (feq_eq_true_iff _ _).mp hy with ⟨qy, -, hqy⟩
  rcases (feq_eq_true_iff _ _).mp hz with ⟨qz, -, hqz⟩
  simp [point_no_nan, hqx, hqy, hqz, is_nan]

theorem tet_eq_imp_multiset_eq {a b : Tetrahedron}
    (h : Tetrahedron.eq a b = true) : tet_multiset a = tet_multiset b := by
  rcases List.any_eq_true.mp h with ⟨x, hx, hall⟩
  rw [List.all_eq_true] at hall
  have hpts : ∀ i : Fin 4, b.pts i = a.pts (x i) := fun i =>
    (point_eq_imp_eq (hall i (List.mem_finRange i))).symm
  have hmapb : (List.finRange 4).map b.pts = ((List.finRange 4).map x).map a.pts := by
    rw [List.map_map]
    exact List.map_congr_left (fun i _ => hpts i)
  have hperm : (((List.finRange 4).map x).map a.pts).Perm ((List.finRange 4).map a.pts) :=
    (perm4_map_finRange x hx).map a.pts
  unfold tet_multiset
  rw [hmapb]
  exact (Multiset.coe_eq_coe.mpr hperm).symm

/-- A concrete finite point. -/
def mkp (a b c : ℚ) : Point3 := ⟨F.fin a, F.fin b, F.fin c⟩

/-- A point with a NaN coordinate. -/
def pNaN : Point3 := ⟨F.nan, F.fin 0, F.fin 0⟩

/-- A tetrahedron with a NaN coordinate component. -/
def tNaN : Tetrahedron :=
  ⟨![pNaN, mkp 1 0 0, mkp 0 1 0, mkp 0 0 1]⟩

/-- C1, counterexample to the claim as stated: for a tetrahedron `T` with a
NaN coordinate and the identity permutation (an element of the 24-entry
table), `T == T'` is `false`, refuting the sub-claim that EVERY tetrahedron
equals each of its 24 vertex-order permutations. -/
theorem c1_counterexample :
    (![0, 1, 2, 3] ∈ PERM4) ∧
      Tetrahedron.eq tNaN (permute_tet ![0, 1, 2, 3] tNaN) = false := by
  constructor
  · decide
  · decide

/-- C1 (amended): `A == B` holds iff some permutation of `{0,1,2,3}` — drawn
from the full 24-element permutation group — matches `A`'s vertex at position
`pi i` with `B`'s vertex at position `i` under exact componentwise
floating-point equality; every one of the 24 vertex-order permutations `T'`
of a tetrahedron `T` *none of whose coordinates is NaN* satisfies `T == T'`;
and any `T2` whose vertex multiset differs from `T`'s is unequal to `T`. -/
theorem c1_permutation_identity :
    (∀ a b : Tetrahedron, Tetrahedron.eq a b = true ↔
        ∃ π : Equiv.Perm (Fin 4), ∀ i, point_eq (a.pts (π i)) (b.pts i) = true)
    ∧ (∀ (t : Tetrahedron) (p : Fin 4 → Fin 4), p ∈ PERM4 → tet_no_nan t = true →
        Tetrahedron.eq t (permute_tet p t) = true)
    ∧ (∀ a b : Tetrahedron, tet_multiset a ≠ tet_multiset b →
        Tetrahedron.eq a b = false) := by
  refine ⟨tet_eq_true_iff, fun t p hp hnn => ?_, fun a b hne => ?_⟩
  · have hno : ∀ i, point_no_nan (t.pts i) = true := by
      rw [tet_no_nan, List.all_eq_true] at hnn
      exact fun i => hnn i (List.mem_finRange i)
    refine List.any_eq_true.mpr ⟨p, hp, ?_⟩
    rw [List.all_eq_true]
    intro i _
    exact (point_eq_self_iff _).mpr (hno (p i))
  · rcases h : Tetrahedron.eq a b with - | -
    · rfl
    · exact absurd (tet_eq_imp_multiset_eq h) hne

/-- C1 witness: the amended theorem applied at concrete inputs — a NaN-free
tetrahedron equals a transposed copy of itself, and a tetrahedron whose
vertex multiset differs from another's compares unequal. -/
theorem c1_witness :
    Tetrahedron.eq ⟨![mkp 0 0 0, mkp 1 0 0, mkp 0 1 0, mkp 0 0 1]⟩
        (permute_tet ![1, 0, 2, 3] ⟨![mkp 0 0 0, mkp 1 0 0, mkp 0 1 0, mkp 0 0 1]⟩) = true
    ∧ Tetrahedron.eq ⟨![mkp 0 0 0, mkp 1 0 0, mkp 0 1 0, mkp 0 0 1]⟩
        ⟨![mkp 0 0 0, mkp 1 0 0, mkp 0 1 0, mkp 2 2 2]⟩ = false :=
  ⟨c1_permutation_identity.2.1 _ ![1, 0, 2, 3] (by decide) (by decide),
   c1_permutation_identity.2.2 _ _ (by decide)⟩

/-- C10: tetrahedron equality is symmetric and transitive on all tetrahedra,
and reflexive exactly on the tetrahedra none of whose 12 coordinate
components is NaN (floating-point equality makes NaN unequal to itself). -/
theorem c10_partial_equivalence :
    (∀ a b : Tetrahedron, Tetrahedron.eq a b = Tetrahedron.eq b a)
    ∧ (∀ a b c : Tetrahedron, Tetrahedron.eq a b = true →
        Tetrahedron.eq b c = true → Tetrahedron.eq a c = true)
    ∧ (∀ t : Tetrahedron, Tetrahedron.eq t t = true ↔ tet_no_nan t = true) := by
  have key : ∀ a b : Tetrahedron,
      Tetrahedron.eq a b = true → Tetrahedron.eq b a = true := by
    intro a b h
    rcases (tet_eq_true_iff a b).mp h with ⟨π, hπ⟩
    refine (tet_eq_true_iff b a).mpr ⟨π.symm, fun i => ?_⟩
    rw [point_eq_symm]
    have := hπ (π.symm i)
    rwa [Equiv.apply_symm_apply] at this
  refine ⟨fun a b => ?_, fun a b c hab hbc => ?_, fun t => ?_⟩
  · rcases hab : Tetrahedron.eq a b with - | - <;>
      rcases hba : Tetrahedron.eq b a with - | -
    · rfl
    · exact absurd (key b a hba) (by simp [hab])
    · exact absurd (key a b hab) (by simp [hba])
    · rfl
  · rcases (tet_eq_true_iff a b).mp hab with ⟨π₁, h₁⟩
    rcases (tet_eq_true_iff b c).mp hbc with ⟨π₂, h₂⟩
    refine (tet_eq_true_iff a c).mpr ⟨π₂.trans π₁, fun i => ?_⟩
    exact point_eq_trans (h₁ (π₂ i)) (h₂ i)
  · constructor
    · intro h
      rcases (tet_eq_true_iff t t).mp h with ⟨π, hπ⟩
      rw [tet_no_nan, List.all_eq_true]
      intro i _
      exact point_eq_imp_no_nan_right (hπ i)
    · intro hnn
      have hno : ∀ i, point_no_nan (t.pts i) = true := by
        rw [tet_no_nan, List.all_eq_true] at hnn
        exact fun i => hnn i (List.mem_finRange i)
      refine (tet_eq_true_iff t t).mpr ⟨Equiv.refl _, fun i => ?_⟩
      exact (point_eq_self_iff _).mpr (hno i)

/-- C10 witness: transitivity through two concrete permuted copies, and the
reflexivity criterion at a NaN-free tetrahedron and at a NaN one. -/
theorem c10_witness :
    Tetrahedron.eq ⟨![mkp 0 0 0, mkp 1 0 0, mkp 0 1 0, mkp 0 0 1]⟩
        ⟨![mkp 0 1 0, mkp 0 0 1, mkp 0 0 0, mkp 1 0 0]⟩ = true
    ∧ tet_no_nan ⟨![mkp 0 0 0, mkp 1 0 0, mkp 0 1 0, mkp 0 0 1]⟩ = true :=
  ⟨c10_partial_equivalence.2.1 _ ⟨![mkp 1 0 0, mkp 0 0 0, mkp 0 1 0, mkp 0 0 1]⟩ _
      (by decide) (by decide),
   (c10_partial_equivalence.2.2 _).mp (by decide)⟩

/-- Three-valued outcome of a Rust call: a success value, a returned error,
or a panic (out-of-bounds slice indexing).  Functions that cannot panic
simply never produce `panic`. -/
inductive Res (ε α : Type) where
  | ok : α → Res ε α
  | err : ε → Res ε α
  | panic : Res ε α
deriving DecidableEq

/-- `true` on a success value. -/
def Res.is_ok {ε α : Type} : Res ε α → Bool
  | .ok _ => true
  | _ => false

/-- `MeshError` (src/geometry/polymesh.rs); the `&'static str` payloads are
modeled as the corresponding string literals. -/
inductive MeshError where
  | IOError : String → MeshError
  | FormatError : String → MeshError
  | IndexingError : String → MeshError
  | InvalidTriangle : String → MeshError
deriving DecidableEq

/-- `PolygonMesh` (src/geometry/polymesh.rs).  `UnitVec3` face normals share
the 3-component representation `Point3`. -/
structure PolygonMesh where
  vertices : List Point3
  faces : List (List Nat)
  face_normals : List Point3
deriving DecidableEq

/-- `TriangleMesh` (src/geometry/polymesh.rs): all faces have exactly 3
vertex indices. -/
structure TriangleMesh where
  vertices : List Point3
  faces : List (Nat × Nat × Nat)
  face_normals : List Point3
deriving DecidableEq

/- `f32` arithmetic on the model: exact rational arithmetic with NaN
propagation (see the header comment for the scope of the model). -/

def fadd : F → F → F
  | F.fin a, F.fin b => F.fin (a + b)
  | _, _ => F.nan

def fsub : F → F → F
  | F.fin a, F.fin b => F.fin (a - b)
  | _, _ => F.nan

def fmul : F → F → F
  | F.fin a, F.fin b => F.fin (a * b)
  | _, _ => F.nan

/-- `f32` division.  `0.0 / 0.0 = NaN` as in IEEE 754.  For a nonzero
numerator IEEE 754 yields an infinity, which this model collapses to `nan`;
that branch is unreachable in this development: division by an exact zero
only ever happens with a zero numerator (a zero norm forces all components
to be zero over exact rationals, and an empty face's coordinate sum is the
zero vector). -/
def fdiv : F → F → F
  | F.fin a, F.fin b => if b = 0 then F.nan else F.fin (a / b)
  | _, _ => F.nan

def vadd (u v : Point3) : Point3 := ⟨fadd u.x v.x, fadd u.y v.y, fadd u.z v.z⟩

def vsub (u v : Point3) : Point3 := ⟨fsub u.x v.x, fsub u.y v.y, fsub u.z v.z⟩

/-- `nalgebra` cross product of two 3-vectors. -/
def cross (u v : Point3) : Point3 :=
  ⟨fsub (fmul u.y v.z) (fmul u.z v.y),
   fsub (fmul u.z v.x) (fmul u.x v.z),
   fsub (fmul u.x v.y) (fmul u.y v.x)⟩

/-- Squared Euclidean norm. -/
def norm_sq (v : Point3) : F :=
  fadd (fadd (fmul v.x v.x) (fmul v.y v.y)) (fmul v.z v.z)

/-- The `f32` square root, kept as a parameter of the development: the model
records exactly the IEEE 754 facts the proofs use (`sqrt NaN = NaN`,
`sqrt 0 = 0`, `sqrt` of a negative is NaN, `sqrt` of a positive is a positive
finite value); no verified statement depends on the value at a positive
argument. -/
structure SqrtModel where
  sqrt : F → F
  sqrt_nan : sqrt F.nan = F.nan
  sqrt_zero : sqrt (F.fin 0) = F.fin 0
  sqrt_neg : ∀ q : ℚ, q < 0 → sqrt (F.fin q) = F.nan
  sqrt_pos : ∀ q : ℚ, 0 < q → ∃ r : ℚ, 0 < r ∧ sqrt (F.fin q) = F.fin r

/-- A stand-in square root satisfying the `SqrtModel` interface, used only to
instantiate witnesses and counterexamples; every universally quantified
statement below holds for every `SqrtModel`. -/
def sqrt_model0 : SqrtModel where
  sqrt x :=
    match x with
    | F.nan => F.nan
    | F.fin q => if q = 0 then F.fin 0 else if q < 0 then F.nan else F.fin 1
  sqrt_nan := rfl
  sqrt_zero := by simp
  sqrt_neg q hq := by simp [hq, hq.ne]
  sqrt_pos q hq := ⟨1, one_pos, by simp [hq.ne', not_lt.mpr hq.le]⟩

/-- `Unit::new_normalize`: divide the vector by its Euclidean norm (no
zero-length check: a zero vector yields NaN components). -/
def new_normalize (S : SqrtModel) (v : Point3) : Point3 :=
  ⟨fdiv v.x (S.sqrt (norm_sq v)),
   fdiv v.y (S.sqrt (norm_sq v)),
   fdiv v.z (S.sqrt (norm_sq v))⟩

/- Accessors (`PolyMesh` trait default methods and the identical
`impl PolyMesh for PolygonMesh` overrides).  All are pure: they never modify
the mesh. -/

/-- `get_vertex`: `self.vertices.get(idx).ok_or(IndexingError)`. -/
def PolygonMesh.get_vertex (m : PolygonMesh) (idx : Nat) : Res MeshError Point3 :=
  match m.vertices.get? idx with
  | some v => .ok v
  | none => .err (.IndexingError "Indexing failed.")

/-- `get_face`: `self.faces.get(index).ok_or(IndexingError)`. -/
def PolygonMesh.get_face (m : PolygonMesh) (idx : Nat) : Res MeshError (List Nat) :=
  match m.faces.get? idx with
  | some f => .ok f
  | none => .err (.IndexingError "Indexing failed.")

/-- `get_normal`: `self.face_normals.get(idx).ok_or(IndexingError)`. -/
def PolygonMesh.get_normal (m : PolygonMesh) (idx : Nat) : Res MeshError Point3 :=
  match m.face_normals.get? idx with
  | some n => .ok n
  | none => .err (.IndexingError "Indexing failed.")

/-- `get_face_normal` (src/geometry/polymesh.rs): reads the vertices at the
face's first three indices (slice indexing `face[0]`, `face[1]`, `face[2]`
panics when the face is shorter) and returns the normalized cross product of
`face[1] - face[0]` and `face[2] - face[0]`. -/
def get_face_normal (S : SqrtModel) (m : PolygonMesh) (face : List Nat) :
    Res MeshError Point3 :=
  match face.get? 0 with
  | none => .panic
  | some i0 =>
    match m.get_vertex i0 with
    | .err e => .err e
    | .panic => .panic
    | .ok p0 =>
      match face.get? 1 with
      | none => .panic
      | some i1 =>
        match m.get_vertex i1 with
        | .err e => .err e
        | .panic => .panic
        | .ok p1 =>
          match face.get? 2 with
          | none => .panic
          | some i2 =>
            match m.get_vertex i2 with
            | .err e => .err e
            | .panic => .panic
            | .ok p2 => .ok (new_normalize S (cross (vsub p1 p0) (vsub p2 p0)))

/-- `add_vertex`: push the vertex, return its index. -/
def PolygonMesh.add_vertex (m : PolygonMesh) (v : Point3) : PolygonMesh × Nat :=
  ({ m with vertices := m.vertices ++ [v] }, m.vertices.length)

/-- `MutateMesh::add_normals` (default trait method): push the supplied
normal, or compute one via `get_face_normal`; on error nothing is added.
The in-place mutation is modeled by returning the updated mesh. -/
def PolygonMesh.add_normals (S : SqrtModel) (m : PolygonMesh) (face : List Nat)
    (face_normal : Option Point3) : Res MeshError PolygonMesh :=
  match face_normal with
  | some normal => .ok { m with face_normals := m.face_normals ++ [normal] }
  | none =>
    match get_face_normal S m face with
    | .ok t => .ok { m with face_normals := m.face_normals ++ [t] }
    | .err e => .err e
    | .panic => .panic

/-- `impl MutateMesh for PolygonMesh::add_face`: add the normal first (on
error the face is not added), then push the face and return its index. -/
def PolygonMesh.add_face (S : SqrtModel) (m : PolygonMesh) (face : List Nat)
    (face_normal : Option Point3) : Res MeshError (PolygonMesh × Nat) :=
  match m.add_normals S face face_normal with
  | .err e => .err e
  | .panic => .panic
  | .ok m' => .ok ({ m' with faces := m'.faces ++ [face] }, m'.faces.length)

/-- `get_vertex` on a `TriangleMesh` (trait default method). -/
def TriangleMesh.get_vertex (m : TriangleMesh) (idx : Nat) : Res MeshError Point3 :=
  match m.vertices.get? idx with
  | some v => .ok v
  | none => .err (.IndexingError "Indexing failed.")

/-- `get_face_normal` instantiated at `TriangleMesh` (the source function is
generic over `T: PolyMesh`). -/
def tri_get_face_normal (S : SqrtModel) (m : TriangleMesh) (face : List Nat) :
    Res MeshError Point3 :=
  match face.get? 0 with
  | none => .panic
  | some i0 =>
    match m.get_vertex i0 with
    | .err e => .err e
    | .panic => .panic
    | .ok p0 =>
      match face.get? 1 with
      | none => .panic
      | some i1 =>
        match m.get_vertex i1 with
        | .err e => .err e
        | .panic => .panic
        | .ok p1 =>
          match face.get? 2 with
          | none => .panic
          | some i2 =>
            match m.get_vertex i2 with
            | .err e => .err e
            | .panic => .panic
            | .ok p2 => .ok (new_normalize S (cross (vsub p1 p0) (vsub p2 p0)))

/-- `add_vertex` on a `TriangleMesh`. -/
def TriangleMesh.add_vertex (m : TriangleMesh) (v : Point3) : TriangleMesh × Nat :=
  ({ m with vertices := m.vertices ++ [v] }, m.vertices.length)

/-- `add_normals` on a `TriangleMesh` (trait default method). -/
def TriangleMesh.add_normals (S : SqrtModel) (m : TriangleMesh) (face : List Nat)
    (face_normal : Option Point3) : Res MeshError TriangleMesh :=
  match face_normal with
  | some normal => .ok { m with face_normals := m.face_normals ++ [normal] }
  | none =>
    match tri_get_face_normal S m face with
    | .ok t => .ok { m with face_normals := m.face_normals ++ [t] }
    | .err e => .err e
    | .panic => .panic

/-- `impl MutateMesh for TriangleMesh::add_face`: add the normal, then push
`[face[0], face[1], face[2]]` (slice indexing panics when the face is
shorter than 3). -/
def TriangleMesh.add_face (S : SqrtModel) (m : TriangleMesh) (face : List Nat)
    (face_normal : Option Point3) : Res MeshError (TriangleMesh × Nat) :=
  match m.add_normals S face face_normal with
  | .err e => .err e
  | .panic => .panic
  | .ok m' =>
    match face.get? 0, face.get? 1, face.get? 2 with
    | some a, some b, some c => .ok ({ m' with faces := m'.faces ++ [(a, b, c)] }, m'.faces.length)
    | _, _, _ => .panic

/-- The per-face accumulation of `to_triangle_mesh`'s first inner loop:
`for vertex in face { let t = self.get_vertex(*vertex)?; center += t }`. -/
def center_sum (m : PolygonMesh) : List Nat → Point3 → Res MeshError Point3
  | [], acc => .ok acc
  | i :: rest, acc =>
    match m.get_vertex i with
    | .ok p => center_sum m rest (vadd acc p)
    | .err e => .err e
    | .panic => .panic

/-- One iteration of `to_triangle_mesh`'s fan loop at index `i`:
`mesh.add_face(vec![center_vertex_index, face[i], face[i + 1 % face.len()]],
Some(*normal))`.  Note the source's index expression groups as
`i + (1 % face.len())`. -/
def fan_step (S : SqrtModel) (face : List Nat) (normal : Point3) (cidx : Nat)
    (acc : Res MeshError TriangleMesh) (i : Nat) : Res MeshError TriangleMesh :=
  match acc with
  | .ok tm =>
    match face.get? i with
    | none => .panic
    | some fi =>
      match face.get? (i + 1 % face.length) with
      | none => .panic
      | some fj =>
        match tm.add_face S [cidx, fi, fj] (some normal) with
        | .ok (tm', _) => .ok tm'
        | .err e => .err e
        | .panic => .panic
  | e => e

/-- The per-face body of `to_triangle_mesh`'s outer loop: compute the face's
vertex centroid (`center_of_face /= face.len() as Float`), add it as a new
vertex, and fan-triangulate the face around it. -/
def tri_face_step (S : SqrtModel) (m : PolygonMesh)
    (acc : Res MeshError TriangleMesh) (fn : List Nat × Point3) :
    Res MeshError TriangleMesh :=
  match acc with
  | .ok tm =>
    match center_sum m fn.1 ⟨F.fin 0, F.fin 0, F.fin 0⟩ with
    | .ok s =>
      let center : Point3 :=
        ⟨fdiv s.x (F.fin (fn.1.length : ℚ)),
         fdiv s.y (F.fin (fn.1.length : ℚ)),
         fdiv s.z (F.fin (fn.1.length : ℚ))⟩
      let p := tm.add_vertex center
      (List.range fn.1.length).foldl (fan_step S fn.1 fn.2 p.2) (.ok p.1)
    | .err e => .err e
    | .panic => .panic
  | e => e

/-- `PolygonMesh::to_triangle_mesh` (src/geometry/polymesh.rs): clone the
vertices, then run `tri_face_step` over every `(face, normal)` pair of
`self.faces.iter().zip(self.face_normals.iter())`. -/
def to_triangle_mesh (S : SqrtModel) (m : PolygonMesh) : Res MeshError TriangleMesh :=
  (m.faces.zip m.face_normals).foldl (tri_face_step S m) (.ok ⟨m.vertices, [], []⟩)

/-- The spec's `PolygonMesh` invariant as a decidable predicate: the normal
count equals the face count, and every index of every face is strictly below
the vertex count. -/
def mesh_inv (m : PolygonMesh) : Bool :=
  (m.face_normals.length == m.faces.length) &&
    m.faces.all (fun f => f.all (fun i => i < m.vertices.length))

/-- The meshes reachable from the empty mesh by `add_vertex` and (successful)
`add_face` calls. -/
inductive Reachable : PolygonMesh → Prop where
  | empty : Reachable ⟨[], [], []⟩
  | vertex_step : ∀ m v, Reachable m → Reachable (m.add_vertex v).1
  | face_step : ∀ (S : SqrtModel) (m : PolygonMesh) (face : List Nat)
      (fn : Option Point3) (m' : PolygonMesh) (i : Nat), Reachable m →
      m.add_face S face fn = .ok (m', i) → Reachable m'

/-- C7: each accessor returns the stored element exactly when the index is
strictly below the corresponding count, fails with an `IndexingError`
exactly when it is out of range, and fails in no other way (it never
panics).  The accessors are pure functions of the mesh, so the mesh is left
unchanged. -/
theorem c7_index_accessors (m : PolygonMesh) (idx : Nat) :
    (∀ h : idx < m.vertices.length,
        m.get_vertex idx = .ok (m.vertices.get ⟨idx, h⟩))
    ∧ (m.vertices.length ≤ idx →
        m.get_vertex idx = .err (.IndexingError "Indexing failed."))
    ∧ m.get_vertex idx ≠ .panic
    ∧ (∀ h : idx < m.faces.length,
        m.get_face idx = .ok (m.faces.get ⟨idx, h⟩))
    ∧ (m.faces.length ≤ idx →
        m.get_face idx = .err (.IndexingError "Indexing failed."))
    ∧ m.get_face idx ≠ .panic
    ∧ (∀ h : idx < m.face_normals.length,
        m.get_normal idx = .ok (m.face_normals.get ⟨idx, h⟩))
    ∧ (m.face_normals.length ≤ idx →
        m.get_normal idx = .err (.IndexingError "Indexing failed."))
    ∧ m.get_normal idx ≠ .panic := by
  refine ⟨fun h => ?_, fun h => ?_, ?_, fun h => ?_, fun h => ?_, ?_,
    fun h => ?_, fun h => ?_, ?_⟩
  · simp [PolygonMesh.get_vertex, List.getElem?_eq_getElem h]
  · simp [PolygonMesh.get_vertex, List.getElem?_eq_none h]
  · unfold PolygonMesh.get_vertex
    cases m.vertices.get? idx <;> simp
  · simp [PolygonMesh.get_face, List.getElem?_eq_getElem h]
  · simp [PolygonMesh.get_face, List.getElem?_eq_none h]
  · unfold PolygonMesh.get_face
    cases m.faces.get? idx <;> simp
  · simp [PolygonMesh.get_normal, List.getElem?_eq_getElem h]
  · simp [PolygonMesh.get_normal, List.getElem?_eq_none h]
  · unfold PolygonMesh.get_normal
    cases m.face_normals.get? idx <;> simp

/-- C7 witness: the accessor theorem applied at a concrete mesh, once in
range and once out of range. -/
theorem c7_witness :
    PolygonMesh.get_vertex ⟨[mkp 1 2 3], [[0, 0, 0]], [mkp 0 0 1]⟩ 0 = .ok (mkp 1 2 3)
    ∧ PolygonMesh.get_face ⟨[mkp 1 2 3], [[0, 0, 0]], [mkp 0 0 1]⟩ 7 =
        .err (.IndexingError "Indexing failed.") :=
  ⟨(c7_index_accessors ⟨[mkp 1 2 3], [[0, 0, 0]], [mkp 0 0 1]⟩ 0).1 (by decide),
   (c7_index_accessors ⟨[mkp 1 2 3], [[0, 0, 0]], [mkp 0 0 1]⟩ 7).2.2.2.2.1 (by decide)⟩

/-- `add_face` with no explicit normal, when the first three face indices
exist and are in range: the computed normal is pushed and the face is
appended. -/
theorem add_face_none_eq (S : SqrtModel) (m : PolygonMesh) (face : List Nat)
    (i0 i1 i2 : Nat) (p0 p1 p2 : Point3)
    (h0 : face[0]? = some i0) (h1 : face[1]? = some i1)
    (h2 : face[2]? = some i2)
    (hv0 : m.vertices[i0]? = some p0) (hv1 : m.vertices[i1]? = some p1)
    (hv2 : m.vertices[i2]? = some p2) :
    m.add_face S face none =
      .ok ({ vertices := m.vertices, faces := m.faces ++ [face],
             face_normals := m.face_normals ++
               [new_normalize S (cross (vsub p1 p0) (vsub p2 p0))] },
           m.faces.length) := by
  simp [PolygonMesh.add_face, PolygonMesh.add_normals, get_face_normal,
    PolygonMesh.get_vertex, h0, h1, h2, hv0, hv1, hv2]

/-- `add_face` with an explicit normal: the normal is pushed unchanged and
the face is appended, with no validation of the face at all. -/
theorem add_face_some_eq (S : SqrtModel) (m : PolygonMesh) (face : List Nat)
    (n : Point3) :
    m.add_face S face (some n) =
      .ok ({ vertices := m.vertices, faces := m.faces ++ [face],
             face_normals := m.face_normals ++ [n] },
           m.faces.length) := by
  simp [PolygonMesh.add_face, PolygonMesh.add_normals]

/-- C5: with no explicit normal, the normal stored for the new face is the
normalization of the cross product of (second vertex − first vertex) and
(third vertex − first vertex), the vertices at the face's first three
indices; an explicitly supplied normal is stored unchanged. -/
theorem c5_stored_normal (S : SqrtModel) (m : PolygonMesh) (face : List Nat) :
    (∀ i0 i1 i2 p0 p1 p2,
      face[0]? = some i0 → face[1]? = some i1 → face[2]? = some i2 →
      m.vertices[i0]? = some p0 → m.vertices[i1]? = some p1 →
      m.vertices[i2]? = some p2 →
      m.add_face S face none =
        .ok ({ vertices := m.vertices, faces := m.faces ++ [face],
               face_normals := m.face_normals ++
                 [new_normalize S (cross (vsub p1 p0) (vsub p2 p0))] },
             m.faces.length))
    ∧ ∀ n : Point3, m.add_face S face (some n) =
        .ok ({ vertices := m.vertices, faces := m.faces ++ [face],
               face_normals := m.face_normals ++ [n] },
             m.faces.length) :=
  ⟨fun _ _ _ _ _ _ h0 h1 h2 hv0 hv1 hv2 =>
      add_face_none_eq S m face _ _ _ _ _ _ h0 h1 h2 hv0 hv1 hv2,
   fun n => add_face_some_eq S m face n⟩

/-- C5 witness: the theorem applied at a concrete mesh and face. -/
theorem c5_witness :
    PolygonMesh.add_face sqrt_model0 ⟨[mkp 0 0 0, mkp 1 0 0, mkp 0 1 0], [], []⟩
        [0, 1, 2] none =
      .ok (⟨[mkp 0 0 0, mkp 1 0 0, mkp 0 1 0], [[0, 1, 2]],
            [new_normalize sqrt_model0
              (cross (vsub (mkp 1 0 0) (mkp 0 0 0)) (vsub (mkp 0 1 0) (mkp 0 0 0)))]⟩,
           0) :=
  (c5_stored_normal sqrt_model0 ⟨[mkp 0 0 0, mkp 1 0 0, mkp 0 1 0], [], []⟩
      [0, 1, 2]).1 0 1 2 _ _ _ rfl rfl rfl rfl rfl rfl

/-- Normalizing the zero vector: `0 / sqrt 0 = 0 / 0 = NaN` componentwise. -/
theorem new_normalize_zero (S : SqrtModel) :
    new_normalize S ⟨F.fin 0, F.fin 0, F.fin 0⟩ = ⟨F.nan, F.nan, F.nan⟩ := by
  have h0 : norm_sq ⟨F.fin 0, F.fin 0, F.fin 0⟩ = F.fin 0 := by
    simp [norm_sq, fmul, fadd]
  simp [new_normalize, h0, S.sqrt_zero, fdiv]

/-- C4, counterexample to the claim as stated: on three collinear in-range
vertices (zero cross product), `add_face` with no explicit normal does NOT
fail — it returns `Ok` and appends the face, storing an all-NaN normal.
The code has no degenerate-face error at all (`MeshError` has no such
variant; `Unit::new_normalize` performs no zero-length check). -/
theorem c4_counterexample :
    PolygonMesh.add_face sqrt_model0 ⟨[mkp 0 0 0, mkp 1 0 0, mkp 2 0 0], [], []⟩
        [0, 1, 2] none =
      .ok (⟨[mkp 0 0 0, mkp 1 0 0, mkp 2 0 0], [[0, 1, 2]],
            [⟨F.nan, F.nan, F.nan⟩]⟩, 0) := by
  have hc : cross (vsub (mkp 1 0 0) (mkp 0 0 0)) (vsub (mkp 2 0 0) (mkp 0 0 0)) =
      ⟨F.fin 0, F.fin 0, F.fin 0⟩ := by
    simp [cross, vsub, fsub, fmul, mkp]
  rw [add_face_none_eq sqrt_model0 ⟨[mkp 0 0 0, mkp 1 0 0, mkp 2 0 0], [], []⟩
    [0, 1, 2] 0 1 2 (mkp 0 0 0) (mkp 1 0 0) (mkp 2 0 0) rfl rfl rfl rfl rfl rfl,
    hc, new_normalize_zero]
  rfl

/-- C4 (amended): on a face whose first three vertex indices are in range
and whose first three vertices are collinear (the computed cross product is
numerically zero), `add_face` with no explicit normal succeeds, appending
the face and storing the normalized zero vector — an all-NaN normal
(`0 / 0` componentwise); the only failure mode of this path is an
`IndexingError` for an out-of-range index among the first three. -/
theorem c4_degenerate_face (S : SqrtModel) (m : PolygonMesh) (face : List Nat)
    (i0 i1 i2 : Nat) (p0 p1 p2 : Point3)
    (h0 : face[0]? = some i0) (h1 : face[1]? = some i1)
    (h2 : face[2]? = some i2)
    (hv0 : m.vertices[i0]? = some p0) (hv1 : m.vertices[i1]? = some p1)
    (hv2 : m.vertices[i2]? = some p2)
    (hzero : cross (vsub p1 p0) (vsub p2 p0) = ⟨F.fin 0, F.fin 0, F.fin 0⟩) :
    m.add_face S face none =
      .ok ({ vertices := m.vertices, faces := m.faces ++ [face],
             face_normals := m.face_normals ++ [⟨F.nan, F.nan, F.nan⟩] },
           m.faces.length) := by
  rw [add_face_none_eq S m face i0 i1 i2 p0 p1 p2 h0 h1 h2 hv0 hv1 hv2,
    hzero, new_normalize_zero]

/-- C4 witness: the amended theorem applied to a concrete mesh with three
collinear vertices. -/
theorem c4_witness :
    PolygonMesh.add_face sqrt_model0
        ⟨[mkp 0 0 0, mkp 1 1 1, mkp 3 3 3], [], []⟩ [0, 1, 2] none =
      .ok (⟨[mkp 0 0 0, mkp 1 1 1, mkp 3 3 3], [[0, 1, 2]],
            [⟨F.nan, F.nan, F.nan⟩]⟩, 0) :=
  c4_degenerate_face sqrt_model0 ⟨[mkp 0 0 0, mkp 1 1 1, mkp 3 3 3], [], []⟩
    [0, 1, 2] 0 1 2 (mkp 0 0 0) (mkp 1 1 1) (mkp 3 3 3)
    rfl rfl rfl rfl rfl rfl (by simp [cross, vsub, fsub, fmul, mkp])

/-- C6, counterexample to the claim as stated: `add_face` with an explicit
normal performs no index validation, so the mesh with one face `[0, 1, 2]`
and zero vertices is reachable from the empty mesh, violating the
face-index invariant. -/
theorem c6_counterexample :
    Reachable ⟨[], [[0, 1, 2]], [mkp 0 0 1]⟩
    ∧ mesh_inv ⟨[], [[0, 1, 2]], [mkp 0 0 1]⟩ = false :=
  ⟨Reachable.face_step sqrt_model0 ⟨[], [], []⟩ [0, 1, 2] (some (mkp 0 0 1))
      ⟨[], [[0, 1, 2]], [mkp 0 0 1]⟩ 0 Reachable.empty (by decide),
   by decide⟩

/-- Whatever `add_normals` succeeds with, it only appended one normal. -/
theorem add_normals_ok_shape {S : SqrtModel} {m : PolygonMesh} {face : List Nat}
    {fn : Option Point3} {m₂ : PolygonMesh}
    (h : m.add_normals S face fn = .ok m₂) :
    m₂.vertices = m.vertices ∧ m₂.faces = m.faces ∧
      ∃ nrm, m₂.face_normals = m.face_normals ++ [nrm] := by
  cases fn with
  | some n =>
    simp [PolygonMesh.add_normals] at h
    exact ⟨by rw [← h], by rw [← h], n, by rw [← h]⟩
  | none =>
    unfold PolygonMesh.add_normals at h
    cases hg : get_face_normal S m face with
    | ok t =>
      rw [hg] at h
      simp at h
      exact ⟨by rw [← h], by rw [← h], t, by rw [← h]⟩
    | err e => rw [hg] at h; simp at h
    | panic => rw [hg] at h; simp at h

/-- Whatever `add_face` succeeds with: the vertices are unchanged, the face
was appended, exactly one normal was appended, and the returned index is the
previous face count. -/
theorem add_face_ok_shape {S : SqrtModel} {m : PolygonMesh} {face : List Nat}
    {fn : Option Point3} {m' : PolygonMesh} {i : Nat}
    (h : m.add_face S face fn = .ok (m', i)) :
    m'.vertices = m.vertices ∧ m'.faces = m.faces ++ [face] ∧
      (∃ nrm, m'.face_normals = m.face_normals ++ [nrm]) ∧ i = m.faces.length := by
  unfold PolygonMesh.add_face at h
  cases hn : m.add_normals S face fn with
  | ok m₂ =>
    rw [hn] at h
    simp at h
    obtain ⟨hv, hf, nrm, hnr⟩ := add_normals_ok_shape hn
    refine ⟨?_, ?_, ⟨nrm, ?_⟩, ?_⟩
    · rw [← h.1, hv]
    · rw [← h.1, hf]
    · rw [← h.1, hnr]
    · rw [← h.2, hf]
  | err e => rw [hn] at h; simp at h
  | panic => rw [hn] at h; simp at h

/-- A token: the characters of one whitespace-delimited word of a line. -/
abbrev Token := List Char

/-- A line of an OBJ file, modeled as its whitespace-split token list (see
the header comment). -/
abbrev Line := List Token

/-- The decimal digits of `n`, least significant first. -/
def nat_digits_rev (n : Nat) : List Nat :=
  if n < 10 then [n] else n % 10 :: nat_digits_rev (n / 10)
termination_by n
decreasing_by exact Nat.div_lt_self (by omega) (by omega)

/-- Value of a little-endian digit list. -/
def of_digits_le : List Nat → Nat
  | [] => 0
  | d :: ds => d + 10 * of_digits_le ds

theorem of_digits_nat_digits_rev (n : Nat) :
    of_digits_le (nat_digits_rev n) = n := by
  induction n using Nat.strong_induction_on with
  | _ n ih =>
    rw [nat_digits_rev]
    split
    · simp [of_digits_le]
    · rename_i h
      rw [of_digits_le, ih (n / 10) (Nat.div_lt_self (by omega) (by omega))]
      omega

theorem nat_digits_rev_lt (n : Nat) : ∀ d ∈ nat_digits_rev n, d < 10 := by
  induction n using Nat.strong_induction_on with
  | _ n ih =>
    rw [nat_digits_rev]
    split
    · rename_i h
      intro d hd
      simp only [List.mem_singleton] at hd
      omega
    · rename_i h
      intro d hd
      simp only [List.mem_cons] at hd
      rcases hd with rfl | hd
      · exact Nat.mod_lt _ (by omega)
      · exact ih (n / 10) (Nat.div_lt_self (by omega) (by omega)) d hd

theorem nat_digits_rev_ne_nil (n : Nat) : nat_digits_rev n ≠ [] := by
  rw [nat_digits_rev]
  split <;> simp

/-- The ASCII digit character of `d < 10`. -/
def digit_char (d : Nat) : Char := Char.ofNat (48 + d)

/-- Decimal rendering of a natural number (`to_string` on `usize`): most
significant digit first. -/
def nat_to_str (n : Nat) : Token := (nat_digits_rev n).reverse.map digit_char

theorem digit_char_facts :
    ∀ d, d < 10 → (digit_char d).isDigit = true ∧ (digit_char d).toNat = 48 + d ∧
      digit_char d ≠ '+' ∧ digit_char d ≠ '-' ∧ digit_char d ≠ '/' ∧
      digit_char d ≠ 'd' ∧ digit_char d ≠ 'n' := by
  decide

theorem foldl_digit_chars (ds : List Nat) (a : Nat) (h : ∀ d ∈ ds, d < 10) :
    (ds.reverse.map digit_char).foldl (fun x c => x * 10 + (c.toNat - 48)) a =
      a * 10 ^ ds.length + of_digits_le ds := by
  induction ds generalizing a with
  | nil => simp [of_digits_le]
  | cons d t ih =>
    simp only [List.reverse_cons, List.map_append, List.foldl_append]
    rw [ih a (fun x hx => h x (List.mem_cons_of_mem d hx))]
    have hd : (digit_char d).toNat = 48 + d :=
      (digit_char_facts d (h d (List.mem_cons_self d t))).2.1
    simp only [List.map_cons, List.map_nil, List.foldl_cons, List.foldl_nil, hd,
      of_digits_le, List.length_cons, pow_succ]
    have : 48 + d - 48 = d := by omega
    rw [this]
    ring

/-- All characters rendered by `nat_to_str` are ASCII digits; packaged with
nonemptiness and the head not being a sign or separator character. -/
theorem nat_to_str_digits (n : Nat) :
    ∀ c ∈ nat_to_str n, ∃ d, d < 10 ∧ c = digit_char d := by
  intro c hc
  rw [nat_to_str, List.mem_map] at hc
  obtain ⟨d, hd, rfl⟩ := hc
  rw [List.mem_reverse] at hd
  exact ⟨d, nat_digits_rev_lt n d hd, rfl⟩

theorem nat_to_str_ne_nil (n : Nat) : nat_to_str n ≠ [] := by
  rw [nat_to_str]
  simp [nat_digits_rev_ne_nil n]

/-- `str::parse::<u32>`: an optional leading `+`, then one or more ASCII
digits, value at most `u32::MAX`; anything else (including overflow) is a
parse error. -/
def parse_u32 (t : Token) : Option Nat :=
  let t' := if t.head? = some '+' then t.tail else t
  if t' ≠ [] ∧ t'.all Char.isDigit then
    let v := t'.foldl (fun a c => a * 10 + (c.toNat - 48)) 0
    if v < 2 ^ 32 then some v else none
  else none

theorem parse_u32_nat_to_str (n : Nat) (h : n < 2 ^ 32) :
    parse_u32 (nat_to_str n) = some n := by
  have hhead : ¬ (nat_to_str n).head? = some '+' := by
    cases hts : nat_to_str n with
    | nil => simp
    | cons c cs =>
      obtain ⟨d, hd, rfl⟩ := nat_to_str_digits n c (hts ▸ List.mem_cons_self c cs)
      simp [(digit_char_facts d hd).2.2.1]
  have hdig : (nat_to_str n).all Char.isDigit = true := by
    rw [List.all_eq_true]
    intro c hc
    obtain ⟨d, hd, rfl⟩ := nat_to_str_digits n c hc
    exact (digit_char_facts d hd).1
  have hval : (nat_to_str n).foldl (fun a c => a * 10 + (c.toNat - 48)) 0 = n := by
    rw [nat_to_str, foldl_digit_chars _ 0 (nat_digits_rev_lt n),
      of_digits_nat_digits_rev]
    simp
  rw [parse_u32]
  simp only [if_neg hhead]
  rw [if_pos ⟨nat_to_str_ne_nil n, hdig⟩, hval, if_pos h]

/-- The `f32`-to-text contract used by the OBJ writer/loader pair: Rust's
`Display for f32` together with the loader's parse chain (`parse::<f32>`,
whose `parse::<i32>`-as-`f32` fallback is dead code — every valid integer
literal is already a valid float literal).  `Display` documents shortest
round-tripping output; `parse_render` captures it: parsing a rendered value
restores it exactly. -/
structure FloatFormat where
  render : F → Token
  parse : Token → Option F
  parse_render : ∀ q : F, parse (render q) = some q

/-- `write_obj` (src/geometry/polymesh.rs): one `v x y z` line per vertex in
order, then one `f` line per face in order carrying 1-based indices
(`(f + 1).to_string()`).  The returned byte count is not modeled. -/
def write_obj (ff : FloatFormat) (m : PolygonMesh) : List Line :=
  m.vertices.map (fun v => [['v'], ff.render v.x, ff.render v.y, ff.render v.z])
    ++ m.faces.map (fun f => ['f'] :: f.map (fun i => nat_to_str (i + 1)))

/-- `process_obj_vertices`: take the first three tokens in order (any extra
tokens are ignored), parse each as a float, and push the vertex. -/
def process_obj_vertices (ff : FloatFormat) (m : PolygonMesh) (toks : List Token) :
    Res MeshError PolygonMesh :=
  match toks with
  | [] => .err (.FormatError "Unable to process string.")
  | t1 :: rest1 =>
    match ff.parse t1 with
    | none => .err (.FormatError "Failed to parse float.")
    | some a =>
      match rest1 with
      | [] => .err (.FormatError "Unable to process string.")
      | t2 :: rest2 =>
        match ff.parse t2 with
        | none => .err (.FormatError "Failed to parse float.")
        | some b =>
          match rest2 with
          | [] => .err (.FormatError "Unable to process string.")
          | t3 :: _ =>
            match ff.parse t3 with
            | none => .err (.FormatError "Failed to parse float.")
            | some c => .ok (m.add_vertex ⟨a, b, c⟩).1

/-- The token loop of `process_obj_faces`: for each token, take the prefix
before the first `/` (`i.split('/').next()`), parse it as `u32`, subtract 1
— modeled with explicit `u32` wrapping (release-profile semantics), so a
parsed `0` wraps to `4294967295` — and bounds-check against the vertex
count. -/
def collect_face_indices (nv : Nat) : List Token → List Nat → Res MeshError (List Nat)
  | [], face => .ok face
  | t :: rest, face =>
    match parse_u32 (t.takeWhile (fun c => c ≠ '/')) with
    | none => .err (.FormatError "Failed to parse integer.")
    | some w =>
      let vertex := (w + (2 ^ 32 - 1)) % 2 ^ 32
      if vertex < nv then collect_face_indices nv rest (face ++ [vertex])
      else .err (.IndexingError "Vertex not contained in mesh.")

/-- `process_obj_faces`: collect and bounds-check the indices, require at
least 3 of them, then `add_face` with no explicit normal. -/
def process_obj_faces (S : SqrtModel) (m : PolygonMesh) (toks : List Token) :
    Res MeshError PolygonMesh :=
  match collect_face_indices m.vertices.length toks [] with
  | .err e => .err e
  | .panic => .panic
  | .ok face =>
    if face.length < 3 then .err (.FormatError "Face does not have enough verticies.")
    else
      match m.add_face S face none with
      | .ok (m', _) => .ok m'
      | .err e => .err e
      | .panic => .panic

/-- The ignored-line test of `load_obj`: the regex
`^(?:#|v[tnp]|g|o|s|usemtl|mtllib|l)( +.*)?` matched as a prefix of the
trimmed line, restated on the line's head token. -/
def skip_line (t : Token) : Bool :=
  match t with
  | '#' :: _ => true
  | 'g' :: _ => true
  | 'o' :: _ => true
  | 's' :: _ => true
  | 'l' :: _ => true
  | 'v' :: 't' :: _ => true
  | 'v' :: 'n' :: _ => true
  | 'v' :: 'p' :: _ => true
  | 'u' :: 's' :: 'e' :: 'm' :: 't' :: 'l' :: _ => true
  | 'm' :: 't' :: 'l' :: 'l' :: 'i' :: 'b' :: _ => true
  | _ => false

/-- The line loop of `load_obj`: each (trimmed, tokenized) line is
dispatched on its head token — `v` lines with at least one further token add
a vertex, `f` lines with at least one further token add a face, blank and
comment-class lines are skipped, anything else is an invalid-line error. -/
def load_obj_lines (S : SqrtModel) (ff : FloatFormat) :
    List Line → PolygonMesh → Res MeshError PolygonMesh
  | [], m => .ok m
  | line :: rest, m =>
    match line with
    | [] => load_obj_lines S ff rest m
    | t :: toks =>
      if t = ['v'] ∧ toks ≠ [] then
        match process_obj_vertices ff m toks with
        | .ok m' => load_obj_lines S ff rest m'
        | .err e => .err e
        | .panic => .panic
      else if t = ['f'] ∧ toks ≠ [] then
        match process_obj_faces S m toks with
        | .ok m' => load_obj_lines S ff rest m'
        | .err e => .err e
        | .panic => .panic
      else if skip_line t then load_obj_lines S ff rest m
      else .err (.FormatError "Invalid file line.")

/-- `load_obj` after a successful `File::open`, starting from the empty
mesh.  The `File::open` and `read_line` I/O failure paths (file not found,
permission denied, unreadable line) return `IOError`s and are outside this
model, which quantifies over the line contents of the file. -/
def load_obj (S : SqrtModel) (ff : FloatFormat) (lines : List Line) :
    Res MeshError PolygonMesh :=
  load_obj_lines S ff lines ⟨[], [], []⟩

theorem nat_to_str_foldl (n : Nat) :
    (nat_to_str n).foldl (fun a c => a * 10 + (c.toNat - 48)) 0 = n := by
  rw [nat_to_str, foldl_digit_chars _ 0 (nat_digits_rev_lt n),
    of_digits_nat_digits_rev]
  simp

theorem takeWhile_all_append (p : Char → Bool) (A B : Token) (c : Char)
    (hA : ∀ a ∈ A, p a = true) (hc : p c = false) :
    (A ++ c :: B).takeWhile p = A ∧ (A ++ c :: B).dropWhile p = c :: B := by
  induction A with
  | nil => simp [List.takeWhile_cons, List.dropWhile_cons, hc]
  | cons a t ih =>
    have h2 := ih (fun x hx => hA x (List.mem_cons_of_mem a hx))
    simp [List.takeWhile_cons, List.dropWhile_cons, hA a (List.mem_cons_self a t),
      h2.1, h2.2]

/-- A concrete injective rendering of model floats, used to instantiate
witnesses: NaN renders as `nan`, a finite rational as `[-]<num>d<den>` in
decimal.  (Every verified statement about the OBJ pipeline holds for every
`FloatFormat`; this instance only has to satisfy the interface.) -/
def decimal_render : F → Token
  | F.nan => ['n', 'a', 'n']
  | F.fin q =>
      (if q < 0 then ['-'] else []) ++ nat_to_str q.num.natAbs ++ 'd' :: nat_to_str q.den

/-- Magnitude part of `decimal_parse`: digits, a `d` separator, digits. -/
def decimal_parse_mag (t : Token) (neg : Bool) : Option F :=
  let as := t.takeWhile (fun c => c ≠ 'd')
  match t.dropWhile (fun c => c ≠ 'd') with
  | [] => none
  | _ :: bs =>
    let n : Nat := as.foldl (fun a c => a * 10 + (c.toNat - 48)) 0
    let d : Nat := bs.foldl (fun a c => a * 10 + (c.toNat - 48)) 0
    if d = 0 then none
    else some (F.fin ((if neg then -1 else 1) * (n : ℚ) / (d : ℚ)))

/-- Parser inverting `decimal_render`. -/
def decimal_parse (t : Token) : Option F :=
  if t = ['n', 'a', 'n'] then some F.nan
  else if t.head? = some '-' then decimal_parse_mag t.tail true
  else decimal_parse_mag t false

theorem decimal_parse_mag_eq (a b : Nat) (neg : Bool) (hb : b ≠ 0) :
    decimal_parse_mag (nat_to_str a ++ 'd' :: nat_to_str b) neg =
      some (F.fin ((if neg then -1 else 1) * (a : ℚ) / (b : ℚ))) := by
  have hAdig : ∀ x ∈ nat_to_str a, (fun c => decide (c ≠ 'd')) x = true := by
    intro x hx
    obtain ⟨d, hd, rfl⟩ := nat_to_str_digits _ x hx
    simpa using (digit_char_facts d hd).2.2.2.2.2.1
  have hsplit := takeWhile_all_append (fun c => decide (c ≠ 'd'))
    (nat_to_str a) (nat_to_str b) 'd' hAdig (by simp)
  unfold decimal_parse_mag
  rw [hsplit.2]
  simp only [hsplit.1, nat_to_str_foldl]
  rw [if_neg hb]

theorem decimal_parse_render (x : F) : decimal_parse (decimal_render x) = some x := by
  cases x with
  | nan => rfl
  | fin q =>
    by_cases hq : q < 0
    · have hrender : decimal_render (F.fin q) =
          '-' :: (nat_to_str q.num.natAbs ++ 'd' :: nat_to_str q.den) := by
        simp [decimal_render, if_pos hq]
      have hne : ('-' :: (nat_to_str q.num.natAbs ++ 'd' :: nat_to_str q.den)) ≠
          ['n', 'a', 'n'] := by
        intro hcontra
        injection hcontra with h1 _
        exact absurd h1 (by decide)
      rw [hrender]
      unfold decimal_parse
      rw [if_neg hne]
      simp only [List.head?_cons, Option.some.injEq, List.tail_cons, if_true]
      rw [decimal_parse_mag_eq _ _ true q.den_nz]
      have h0 : (q.num.natAbs : ℤ) = -q.num :=
        Int.ofNat_natAbs_of_nonpos (le_of_lt (Rat.num_neg.mpr hq))
      have hcast : (((q.num.natAbs : ℤ) : ℚ)) = ((q.num.natAbs : ℚ)) :=
        Int.cast_natCast _
      have hnum : ((q.num.natAbs : ℚ)) = -(q.num : ℚ) := by
        rw [← hcast, h0, Int.cast_neg]
      congr 1
      rw [if_pos rfl, hnum]
      have harith : (-1 : ℚ) * -(q.num : ℚ) / (q.den : ℚ) = (q.num : ℚ) / (q.den : ℚ) := by
        ring
      rw [harith, Rat.num_div_den]
    · have hrender : decimal_render (F.fin q) =
          nat_to_str q.num.natAbs ++ 'd' :: nat_to_str q.den := by
        simp [decimal_render, if_neg hq]
      obtain ⟨c, cs, hA⟩ : ∃ c cs, nat_to_str q.num.natAbs = c :: cs := by
        cases hA : nat_to_str q.num.natAbs with
        | nil => exact absurd hA (nat_to_str_ne_nil _)
        | cons c cs => exact ⟨c, cs, rfl⟩
      obtain ⟨d, hd, hc⟩ := nat_to_str_digits _ c (hA ▸ List.mem_cons_self c cs)
      have hcn : c ≠ 'n' := by
        rw [hc]
        exact (digit_char_facts d hd).2.2.2.2.2.2
      have hcm : c ≠ '-' := by
        rw [hc]
        exact (digit_char_facts d hd).2.2.2.1
      have hshape : nat_to_str q.num.natAbs ++ 'd' :: nat_to_str q.den =
          c :: (cs ++ 'd' :: nat_to_str q.den) := by
        rw [hA]
        rfl
      have hne : (c :: (cs ++ 'd' :: nat_to_str q.den)) ≠ ['n', 'a', 'n'] := by
        intro hcontra
        injection hcontra with h1 _
        exact hcn h1
      rw [hrender, hshape]
      unfold decimal_parse
      rw [if_neg hne]
      simp only [List.head?_cons, Option.some.injEq]
      rw [if_neg hcm, ← hshape, decimal_parse_mag_eq _ _ false q.den_nz]
      have h0 : (q.num.natAbs : ℤ) = q.num :=
        Int.natAbs_of_nonneg (Rat.num_nonneg.mpr (not_lt.mp hq))
      have hcast : (((q.num.natAbs : ℤ) : ℚ)) = ((q.num.natAbs : ℚ)) :=
        Int.cast_natCast _
      have hnum : ((q.num.natAbs : ℚ)) = (q.num : ℚ) := by
        rw [← hcast, h0]
      congr 1
      rw [if_neg (by decide : ¬ (false = true)), hnum, one_mul, Rat.num_div_den]

/-- The concrete `FloatFormat` instance built from `decimal_render` and
`decimal_parse`. -/
def decimalFF : FloatFormat where
  render := decimal_render
  parse := decimal_parse
  parse_render := decimal_parse_render

theorem takeWhile_of_all (p : Char → Bool) (l : Token) (h : ∀ a ∈ l, p a = true) :
    l.takeWhile p = l := by
  induction l with
  | nil => rfl
  | cons a t ih =>
    rw [List.takeWhile_cons, if_pos (h a (List.mem_cons_self a t)),
      ih (fun x hx => h x (List.mem_cons_of_mem a hx))]

theorem nat_to_str_no_slash (n : Nat) :
    (nat_to_str n).takeWhile (fun c => decide (c ≠ '/')) = nat_to_str n := by
  refine takeWhile_of_all _ _ (fun a ha => ?_)
  obtain ⟨d, hd, rfl⟩ := nat_to_str_digits n a ha
  simpa using (digit_char_facts d hd).2.2.2.2.1

theorem parse_u32_nat_to_str_ge (n : Nat) (h : ¬ n < 2 ^ 32) :
    parse_u32 (nat_to_str n) = none := by
  have hhead : ¬ (nat_to_str n).head? = some '+' := by
    cases hts : nat_to_str n with
    | nil => simp
    | cons c cs =>
      obtain ⟨d, hd, rfl⟩ := nat_to_str_digits n c (hts ▸ List.mem_cons_self c cs)
      simp [(digit_char_facts d hd).2.2.1]
  have hdig : (nat_to_str n).all Char.isDigit = true := by
    rw [List.all_eq_true]
    intro c hc
    obtain ⟨d, hd, rfl⟩ := nat_to_str_digits n c hc
    exact (digit_char_facts d hd).1
  rw [parse_u32]
  simp only [if_neg hhead]
  rw [if_pos ⟨nat_to_str_ne_nil n, hdig⟩, nat_to_str_foldl, if_neg h]

theorem parse_u32_lt {t : Token} {w : Nat} (h : parse_u32 t = some w) :
    w < 2 ^ 32 := by
  unfold parse_u32 at h
  set u := if t.head? = some '+' then t.tail else t with hu
  dsimp only at h
  split at h
  · split at h
    · rename_i hv
      exact (Option.some.inj h) ▸ hv
    · exact absurd h (by simp)
  · exact absurd h (by simp)

theorem wrap_sub_one (w : Nat) (h1 : 1 ≤ w) (h2 : w < 2 ^ 32) :
    (w + (2 ^ 32 - 1)) % 2 ^ 32 = w - 1 := by
  have he : w + (2 ^ 32 - 1) = (w - 1) + 1 * 2 ^ 32 := by omega
  rw [he, Nat.add_mul_mod_self_right, Nat.mod_eq_of_lt (by omega)]

theorem collect_face_indices_render (nv : Nat) (f : List Nat)
    (hnv : nv ≤ 2 ^ 32 - 1) (hf : ∀ i ∈ f, i < nv) : ∀ acc : List Nat,
    collect_face_indices nv (f.map (fun i => nat_to_str (i + 1))) acc =
      .ok (acc ++ f) := by
  revert hf
  induction f with
  | nil =>
    intro hf acc
    simp [collect_face_indices]
  | cons i t ih =>
    intro hf acc
    have hi : i < nv := hf i (List.mem_cons_self i t)
    have hi32 : i + 1 < 2 ^ 32 := by omega
    rw [List.map_cons, collect_face_indices, nat_to_str_no_slash,
      parse_u32_nat_to_str (i + 1) hi32]
    simp only
    rw [wrap_sub_one (i + 1) (by omega) hi32]
    simp only [Nat.add_sub_cancel]
    rw [if_pos hi, ih (fun x hx => hf x (List.mem_cons_of_mem i hx)) (acc ++ [i])]
    simp

/-- The normal `load_obj` computes for face `f` against vertex list `V`
(meaningful when `f` carries at least three in-range indices). -/
def computed_normal (S : SqrtModel) (V : List Point3) (f : List Nat) : Point3 :=
  new_normalize S
    (cross
      (vsub (V.getD (f.getD 1 0) ⟨F.nan, F.nan, F.nan⟩)
            (V.getD (f.getD 0 0) ⟨F.nan, F.nan, F.nan⟩))
      (vsub (V.getD (f.getD 2 0) ⟨F.nan, F.nan, F.nan⟩)
            (V.getD (f.getD 0 0) ⟨F.nan, F.nan, F.nan⟩)))

theorem get_face_normal_wf (S : SqrtModel) (m : PolygonMesh) (f : List Nat)
    (h3 : 3 ≤ f.length) (hf : ∀ i ∈ f, i < m.vertices.length) :
    get_face_normal S m f = .ok (computed_normal S m.vertices f) := by
  match f, h3 with
  | a :: b :: c :: rest, _ =>
    have ha : a < m.vertices.length := hf a (by simp)
    have hb : b < m.vertices.length := hf b (by simp)
    have hc : c < m.vertices.length := hf c (by simp)
    unfold get_face_normal computed_normal
    simp [PolygonMesh.get_vertex, List.getElem?_eq_getElem, ha, hb, hc,
      List.getD_eq_getElem]

theorem process_obj_faces_render (S : SqrtModel) (m : PolygonMesh) (f : List Nat)
    (h3 : 3 ≤ f.length) (hf : ∀ i ∈ f, i < m.vertices.length)
    (hnv : m.vertices.length ≤ 2 ^ 32 - 1) :
    process_obj_faces S m (f.map (fun i => nat_to_str (i + 1))) =
      .ok { vertices := m.vertices, faces := m.faces ++ [f],
            face_normals := m.face_normals ++ [computed_normal S m.vertices f] } := by
  unfold process_obj_faces
  rw [collect_face_indices_render m.vertices.length f hnv hf []]
  simp only [List.nil_append]
  rw [if_neg (by omega)]
  unfold PolygonMesh.add_face PolygonMesh.add_normals
  rw [get_face_normal_wf S m f h3 hf]

theorem process_obj_vertices_render (ff : FloatFormat) (m : PolygonMesh)
    (v : Point3) :
    process_obj_vertices ff m [ff.render v.x, ff.render v.y, ff.render v.z] =
      .ok { m with vertices := m.vertices ++ [v] } := by
  unfold process_obj_vertices
  simp only [ff.parse_render]
  rfl

theorem load_vertex_lines (S : SqrtModel) (ff : FloatFormat) (vs : List Point3)
    (rest : List Line) : ∀ m : PolygonMesh,
    load_obj_lines S ff
        (vs.map (fun v => [['v'], ff.render v.x, ff.render v.y, ff.render v.z]) ++ rest)
        m =
      load_obj_lines S ff rest { m with vertices := m.vertices ++ vs } := by
  induction vs with
  | nil => intro m; simp
  | cons v t ih =>
    intro m
    rw [List.map_cons, List.cons_append, load_obj_lines]
    rw [if_pos (by simp : (['v'] : Token) = ['v'] ∧
        ([ff.render v.x, ff.render v.y, ff.render v.z] : List Token) ≠ []),
      process_obj_vertices_render ff m v]
    dsimp only
    rw [ih { m with vertices := m.vertices ++ [v] }]
    simp

theorem load_face_lines (S : SqrtModel) (ff : FloatFormat) (fs : List (List Nat))
    (rest : List Line) (V : List Point3)
    (hnv : V.length ≤ 2 ^ 32 - 1)
    (hwf : ∀ f ∈ fs, 3 ≤ f.length ∧ ∀ i ∈ f, i < V.length) :
    ∀ FS : List (List Nat), ∀ NS : List Point3,
    load_obj_lines S ff
        (fs.map (fun f => ['f'] :: f.map (fun i => nat_to_str (i + 1))) ++ rest)
        ⟨V, FS, NS⟩ =
      load_obj_lines S ff rest ⟨V, FS ++ fs, NS ++ fs.map (computed_normal S V)⟩ := by
  revert hwf
  induction fs with
  | nil =>
    intro hwf FS NS
    simp
  | cons f t ih =>
    intro hwf FS NS
    have hwf1 := hwf f (List.mem_cons_self f t)
    have hne : f.map (fun i => nat_to_str (i + 1)) ≠ [] := by
      have : f ≠ [] := by
        intro hcontra
        rw [hcontra] at hwf1
        simp at hwf1
      simp [this]
    rw [List.map_cons, List.cons_append, load_obj_lines]
    rw [if_neg (by simp : ¬ ((['f'] : Token) = ['v'] ∧
        (f.map (fun i => nat_to_str (i + 1)) : List Token) ≠ [])),
      if_pos (⟨rfl, hne⟩ : (['f'] : Token) = ['f'] ∧
        (f.map (fun i => nat_to_str (i + 1)) : List Token) ≠ []),
      process_obj_faces_render S ⟨V, FS, NS⟩ f hwf1.1 hwf1.2 hnv]
    dsimp only
    rw [ih (fun x hx => hwf x (List.mem_cons_of_mem f hx)) (FS ++ [f])
      (NS ++ [computed_normal S V f])]
    simp

/-- C3 (amended): for a mesh whose faces each have at least 3 in-range
indices and whose vertex count is at most `u32::MAX`, loading the written
file succeeds and reproduces the vertex sequence and all face index
sequences exactly (1-based on disk, 0-based in memory); the loaded normals
are the ones the loader recomputes from the vertices. -/
theorem c3_write_load_roundtrip (S : SqrtModel) (ff : FloatFormat)
    (m : PolygonMesh)
    (hfaces : ∀ f ∈ m.faces, 3 ≤ f.length ∧ ∀ i ∈ f, i < m.vertices.length)
    (hnv : m.vertices.length ≤ 2 ^ 32 - 1) :
    load_obj S ff (write_obj ff m) =
      .ok ⟨m.vertices, m.faces, m.faces.map (computed_normal S m.vertices)⟩ := by
  unfold load_obj write_obj
  rw [load_vertex_lines S ff m.vertices _ ⟨[], [], []⟩]
  have hfl := load_face_lines S ff m.faces [] m.vertices hnv hfaces [] []
  simp only [List.append_nil, List.nil_append] at hfl
  simp only [List.nil_append]
  rw [hfl, load_obj_lines]

/-- C3 witness: the amended round-trip theorem applied at a concrete mesh
and the concrete `decimalFF` format. -/
theorem c3_witness :
    load_obj sqrt_model0 decimalFF
        (write_obj decimalFF ⟨[mkp 0 0 0, mkp 1 0 0, mkp 0 1 0], [[0, 1, 2]], [mkp 0 0 1]⟩) =
      .ok ⟨[mkp 0 0 0, mkp 1 0 0, mkp 0 1 0], [[0, 1, 2]],
           [computed_normal sqrt_model0 [mkp 0 0 0, mkp 1 0 0, mkp 0 1 0] [0, 1, 2]]⟩ :=
  c3_write_load_roundtrip sqrt_model0 decimalFF
    ⟨[mkp 0 0 0, mkp 1 0 0, mkp 0 1 0], [[0, 1, 2]], [mkp 0 0 1]⟩
    (by decide) (by decide)

/-- A mesh that defeats the round trip as literally stated: `2^32` vertices
(representable in a 64-bit `Vec`) and one well-formed triangular face whose
largest 1-based on-disk index, `2^32`, overflows `parse::<u32>` on reload. -/
def big_mesh : PolygonMesh :=
  ⟨List.replicate (2 ^ 32) (mkp 0 0 0), [[0, 1, 2 ^ 32 - 1]], [mkp 0 0 1]⟩

/-- Processing the face line of `big_mesh` against any mesh with at least 2
vertices: the third on-disk index `4294967296` overflows `parse::<u32>`. -/
theorem process_obj_faces_overflow (S : SqrtModel) (m : PolygonMesh)
    (hnv2 : 1 < m.vertices.length) :
    process_obj_faces S m ([0, 1, 2 ^ 32 - 1].map (fun i => nat_to_str (i + 1))) =
      .err (.FormatError "Failed to parse integer.") := by
  unfold process_obj_faces
  rw [List.map_cons, List.map_cons, List.map_cons, List.map_nil]
  rw [collect_face_indices, nat_to_str_no_slash,
    parse_u32_nat_to_str 1 (by omega)]
  dsimp only
  rw [wrap_sub_one 1 (by omega) (by omega), if_pos (by omega)]
  rw [collect_face_indices, nat_to_str_no_slash,
    parse_u32_nat_to_str 2 (by omega)]
  dsimp only
  rw [wrap_sub_one 2 (by omega) (by omega), if_pos (by omega)]
  have h32 : 2 ^ 32 - 1 + 1 = 2 ^ 32 := by omega
  rw [collect_face_indices, nat_to_str_no_slash, h32,
    parse_u32_nat_to_str_ge (2 ^ 32) (lt_irrefl _)]

/-- C3, counterexample to the claim as stated: `big_mesh` satisfies the
claim's hypotheses (faces of at least 3 in-range indices), yet write-then-
load fails with a `FormatError` — the on-disk face index `4294967296` does
not fit `u32` — instead of reproducing the mesh. -/
theorem c3_counterexample :
    (∀ f ∈ big_mesh.faces, 3 ≤ f.length ∧ ∀ i ∈ f, i < big_mesh.vertices.length)
    ∧ load_obj sqrt_model0 decimalFF (write_obj decimalFF big_mesh) =
        .err (.FormatError "Failed to parse integer.") := by
  constructor
  · intro f hf
    simp only [big_mesh, List.mem_singleton] at hf
    subst hf
    refine ⟨by simp, ?_⟩
    intro i hi
    simp only [big_mesh, List.length_replicate]
    simp only [List.mem_cons, List.not_mem_nil, or_false] at hi
    rcases hi with rfl | rfl | rfl <;> omega
  · unfold load_obj write_obj big_mesh
    dsimp only
    rw [load_vertex_lines sqrt_model0 decimalFF _ _ ⟨[], [], []⟩]
    simp only [List.nil_append]
    rw [List.map_cons, List.map_nil, load_obj_lines]
    rw [if_neg (by simp : ¬ ((['f'] : Token) = ['v'] ∧
        (([0, 1, 2 ^ 32 - 1].map (fun i => nat_to_str (i + 1))) : List Token) ≠ [])),
      if_pos (by simp : (['f'] : Token) = ['f'] ∧
        (([0, 1, 2 ^ 32 - 1].map (fun i => nat_to_str (i + 1))) : List Token) ≠ [])]
    rw [process_obj_faces_overflow sqrt_model0 _
      (by simp only [List.length_replicate]; omega)]

theorem get_vertex_ne_panic (m : PolygonMesh) (idx : Nat) :
    m.get_vertex idx ≠ .panic := by
  unfold PolygonMesh.get_vertex
  cases m.vertices.get? idx <;> simp

theorem get_face_normal_no_panic (S : SqrtModel) (m : PolygonMesh)
    (face : List Nat) (h3 : 3 ≤ face.length) :
    get_face_normal S m face ≠ .panic := by
  match face, h3 with
  | a :: b :: c :: rest, _ =>
    unfold get_face_normal
    simp only [List.get?]
    cases h1 : m.get_vertex a with
    | err e => simp
    | panic => exact absurd h1 (get_vertex_ne_panic m a)
    | ok p0 =>
      cases h2 : m.get_vertex b with
      | err e => simp
      | panic => exact absurd h2 (get_vertex_ne_panic m b)
      | ok p1 =>
        cases hv3 : m.get_vertex c with
        | err e => simp
        | panic => exact absurd hv3 (get_vertex_ne_panic m c)
        | ok p2 => simp

theorem add_face_no_panic (S : SqrtModel) (m : PolygonMesh) (face : List Nat)
    (fn : Option Point3) (h3 : 3 ≤ face.length) :
    m.add_face S face fn ≠ .panic := by
  unfold PolygonMesh.add_face PolygonMesh.add_normals
  cases fn with
  | some n => simp
  | none =>
    cases hg : get_face_normal S m face with
    | ok t => simp
    | err e => simp
    | panic => exact absurd hg (get_face_normal_no_panic S m face h3)

theorem collect_face_indices_no_panic (nv : Nat) : ∀ (toks : List Token)
    (acc : List Nat), collect_face_indices nv toks acc ≠ .panic := by
  intro toks
  induction toks with
  | nil => intro acc; simp [collect_face_indices]
  | cons t rest ih =>
    intro acc
    rw [collect_face_indices]
    cases hp : parse_u32 (t.takeWhile (fun c => c ≠ '/')) with
    | none => simp
    | some w =>
      dsimp only
      by_cases hv : (w + (2 ^ 32 - 1)) % 2 ^ 32 < nv
      · rw [if_pos hv]
        exact ih _
      · rw [if_neg hv]
        simp

theorem process_obj_faces_no_panic (S : SqrtModel) (m : PolygonMesh)
    (toks : List Token) : process_obj_faces S m toks ≠ .panic := by
  unfold process_obj_faces
  cases hc : collect_face_indices m.vertices.length toks [] with
  | err e => simp
  | panic => exact absurd hc (collect_face_indices_no_panic _ _ _)
  | ok face =>
    dsimp only
    by_cases h3 : face.length < 3
    · rw [if_pos h3]
      simp
    · rw [if_neg h3]
      cases ha : m.add_face S face none with
      | ok p =>
        cases p
        simp
      | err e => simp
      | panic => exact absurd ha (add_face_no_panic S m face none (by omega))

theorem process_obj_vertices_no_panic (ff : FloatFormat) (m : PolygonMesh)
    (toks : List Token) : process_obj_vertices ff m toks ≠ .panic := by
  unfold process_obj_vertices
  rcases toks with - | ⟨t1, rest1⟩
  · simp
  · dsimp only
    cases hp1 : ff.parse t1 with
    | none => simp
    | some a =>
      rcases rest1 with - | ⟨t2, rest2⟩
      · simp
      · dsimp only
        cases hp2 : ff.parse t2 with
        | none => simp
        | some b =>
          rcases rest2 with - | ⟨t3, rest3⟩
          · simp
          · dsimp only
            cases hp3 : ff.parse t3 with
            | none => simp
            | some c => simp

theorem load_obj_lines_no_panic (S : SqrtModel) (ff : FloatFormat) :
    ∀ (lines : List Line) (m : PolygonMesh),
    load_obj_lines S ff lines m ≠ .panic := by
  intro lines
  induction lines with
  | nil => intro m; simp [load_obj_lines]
  | cons line rest ih =>
    intro m
    rcases line with - | ⟨t, toks⟩
    · rw [load_obj_lines]
      exact ih m
    · rw [load_obj_lines]
      by_cases h1 : t = ['v'] ∧ toks ≠ []
      · rw [if_pos h1]
        cases hp : process_obj_vertices ff m toks with
        | ok m' => exact ih m'
        | err e => simp
        | panic => exact absurd hp (process_obj_vertices_no_panic ff m toks)
      · rw [if_neg h1]
        by_cases h2 : t = ['f'] ∧ toks ≠ []
        · rw [if_pos h2]
          cases hp : process_obj_faces S m toks with
          | ok m' => exact ih m'
          | err e => simp
          | panic => exact absurd hp (process_obj_faces_no_panic S m toks)
        · rw [if_neg h2]
          by_cases h3 : skip_line t = true
          · rw [if_pos h3]
            exact ih m
          · rw [if_neg h3]
            simp

/-- On a mesh holding at least `2^32` vertices, the face line `f 0 1 2` is
ACCEPTED: the parsed `u32` value `0` wraps under the `- 1` to
`4294967295 = 2^32 - 1`, which passes the `vertex < get_vertex_count()`
bounds check, so `add_face` runs and appends the face `[2^32 - 1, 0, 1]`
with its computed normal instead of reporting an error. -/
theorem process_obj_faces_vertex_zero_accepted (S : SqrtModel) (m : PolygonMesh)
    (hnv : 2 ^ 32 ≤ m.vertices.length) :
    process_obj_faces S m [['0'], ['1'], ['2']] =
      .ok { vertices := m.vertices,
            faces := m.faces ++ [[2 ^ 32 - 1, 0, 1]],
            face_normals := m.face_normals ++
              [computed_normal S m.vertices [2 ^ 32 - 1, 0, 1]] } := by
  have h2 : (2 : ℕ) ^ 32 = 4294967296 := by norm_num
  have hin : ∀ i ∈ ([2 ^ 32 - 1, 0, 1] : List Nat), i < m.vertices.length := by
    intro i hi
    simp only [List.mem_cons, List.not_mem_nil, or_false] at hi
    rcases hi with rfl | rfl | rfl <;> omega
  unfold process_obj_faces
  rw [collect_face_indices]
  have h0 : parse_u32 (List.takeWhile (fun c => c ≠ '/') (['0'] : Token)) =
      some 0 := by decide
  rw [h0]
  dsimp only
  have hw : (0 + (2 ^ 32 - 1)) % 2 ^ 32 = 2 ^ 32 - 1 := by omega
  rw [hw, if_pos (show 2 ^ 32 - 1 < m.vertices.length by omega)]
  rw [collect_face_indices]
  have hp1 : parse_u32 (List.takeWhile (fun c => c ≠ '/') (['1'] : Token)) =
      some 1 := by decide
  rw [hp1]
  dsimp only
  rw [wrap_sub_one 1 (by omega) (by omega),
    if_pos (show 1 - 1 < m.vertices.length by omega)]
  rw [collect_face_indices]
  have hp2 : parse_u32 (List.takeWhile (fun c => c ≠ '/') (['2'] : Token)) =
      some 2 := by decide
  rw [hp2]
  dsimp only
  rw [wrap_sub_one 2 (by omega) (by omega),
    if_pos (show 2 - 1 < m.vertices.length by omega)]
  rw [collect_face_indices]
  dsimp only
  rw [show (((([] : List Nat) ++ [2 ^ 32 - 1]) ++ [1 - 1]) ++ [2 - 1]) =
      [2 ^ 32 - 1, 0, 1] from rfl]
  rw [if_neg (by simp : ¬ ([2 ^ 32 - 1, 0, 1] : List Nat).length < 3)]
  unfold PolygonMesh.add_face PolygonMesh.add_normals
  rw [get_face_normal_wf S m [2 ^ 32 - 1, 0, 1] (by simp) hin]

/-- C8, counterexample to the claim as stated: a file declaring `2^32`
vertices followed by the face line `f 0 1 2` loads SUCCESSFULLY — the
vertex number 0 wraps to the in-range index `2^32 - 1` and the line is
silently accepted as a face on the last vertex — instead of producing the
claimed typed error return. -/
theorem c8_counterexample :
    load_obj sqrt_model0 decimalFF
        ((List.replicate (2 ^ 32) (mkp 0 0 0)).map
            (fun v => [['v'], decimalFF.render v.x, decimalFF.render v.y,
              decimalFF.render v.z])
          ++ [['f'] :: [['0'], ['1'], ['2']]]) =
      .ok ⟨List.replicate (2 ^ 32) (mkp 0 0 0), [[2 ^ 32 - 1, 0, 1]],
           [computed_normal sqrt_model0 (List.replicate (2 ^ 32) (mkp 0 0 0))
              [2 ^ 32 - 1, 0, 1]]⟩ := by
  unfold load_obj
  rw [load_vertex_lines sqrt_model0 decimalFF _ _ ⟨[], [], []⟩]
  simp only [List.nil_append]
  rw [load_obj_lines]
  rw [if_neg (by simp : ¬ ((['f'] : Token) = ['v'] ∧
      ([['0'], ['1'], ['2']] : List Token) ≠ [])),
    if_pos (by simp : (['f'] : Token) = ['f'] ∧
      ([['0'], ['1'], ['2']] : List Token) ≠ [])]
  rw [process_obj_faces_vertex_zero_accepted sqrt_model0 _
    (by simp only [List.length_replicate]; omega)]
  dsimp only
  rw [load_obj_lines]
  simp only [List.nil_append]

/-- C8 (amended): `load_obj` is total on every sequence of input lines —
it returns a mesh or a structured `MeshError`, never a panic — and a face
line whose vertex number exceeds the vertex count produces a typed
`IndexingError`.  A face line referencing vertex number 0 produces that
same `IndexingError` only while the mesh holds at most `2^32 - 1`
vertices: the wrapping `u32` subtraction turns 0 into `4294967295`, which
fails the bounds check then — but once `2^32` or more vertices are
declared, the wrapped index is in range and the line is silently accepted
as a face on the last vertex rather than producing any error. -/
theorem c8_loader_totality :
    (∀ (S : SqrtModel) (ff : FloatFormat) (lines : List Line),
        load_obj S ff lines ≠ .panic)
    ∧ (∀ (S : SqrtModel) (m : PolygonMesh) (rest : List Token),
        m.vertices.length ≤ 2 ^ 32 - 1 →
        process_obj_faces S m (['0'] :: rest) =
          .err (.IndexingError "Vertex not contained in mesh."))
    ∧ (∀ (S : SqrtModel) (m : PolygonMesh) (t : Token) (rest : List Token)
        (w : Nat),
        parse_u32 (t.takeWhile (fun c => c ≠ '/')) = some w → 1 ≤ w →
        m.vertices.length < w →
        process_obj_faces S m (t :: rest) =
          .err (.IndexingError "Vertex not contained in mesh."))
    ∧ (∀ (S : SqrtModel) (m : PolygonMesh),
        2 ^ 32 ≤ m.vertices.length →
        process_obj_faces S m [['0'], ['1'], ['2']] =
          .ok { vertices := m.vertices,
                faces := m.faces ++ [[2 ^ 32 - 1, 0, 1]],
                face_normals := m.face_normals ++
                  [computed_normal S m.vertices [2 ^ 32 - 1, 0, 1]] }) := by
  refine ⟨fun S ff lines => load_obj_lines_no_panic S ff lines _,
    fun S m rest hnv => ?_, fun S m t rest w hp h1 hnv => ?_,
    fun S m hnv => process_obj_faces_vertex_zero_accepted S m hnv⟩
  · unfold process_obj_faces
    rw [collect_face_indices]
    have h0 : parse_u32 (List.takeWhile (fun c => c ≠ '/') (['0'] : Token)) =
        some 0 := by decide
    rw [h0]
    dsimp only
    have hw : (0 + (2 ^ 32 - 1)) % 2 ^ 32 = 2 ^ 32 - 1 := by
      have h2 : (2 : ℕ) ^ 32 = 4294967296 := by norm_num
      omega
    rw [hw, if_neg (by omega)]
  · unfold process_obj_faces
    rw [collect_face_indices, hp]
    dsimp only
    rw [wrap_sub_one w h1 (parse_u32_lt hp), if_neg (by omega)]

/-- C8 witness: the amended totality theorem applied at a concrete mesh
with one vertex, for a face line naming vertex 0 and one naming vertex 9. -/
theorem c8_witness :
    process_obj_faces sqrt_model0 ⟨[mkp 0 0 0], [], []⟩ [['0']] =
        .err (.IndexingError "Vertex not contained in mesh.")
    ∧ process_obj_faces sqrt_model0 ⟨[mkp 0 0 0], [], []⟩ [['9']] =
        .err (.IndexingError "Vertex not contained in mesh.") :=
  ⟨c8_loader_totality.2.1 sqrt_model0 ⟨[mkp 0 0 0], [], []⟩ [] (by decide),
   c8_loader_totality.2.2.1 sqrt_model0 ⟨[mkp 0 0 0], [], []⟩ ['9'] [] 9
     (by decide) (by decide) (by decide)⟩

theorem process_obj_vertices_ok_shape {ff : FloatFormat} {m : PolygonMesh}
    {toks : List Token} {m' : PolygonMesh}
    (h : process_obj_vertices ff m toks = .ok m') :
    ∃ v, m' = { m with vertices := m.vertices ++ [v] } := by
  unfold process_obj_vertices at h
  rcases toks with - | ⟨t1, r1⟩
  · exact absurd h (by simp)
  · dsimp only at h
    cases hp1 : ff.parse t1 with
    | none => rw [hp1] at h; exact absurd h (by simp)
    | some a =>
      rw [hp1] at h
      dsimp only at h
      rcases r1 with - | ⟨t2, r2⟩
      · exact absurd h (by simp)
      · dsimp only at h
        cases hp2 : ff.parse t2 with
        | none => rw [hp2] at h; exact absurd h (by simp)
        | some b =>
          rw [hp2] at h
          dsimp only at h
          rcases r2 with - | ⟨t3, r3⟩
          · exact absurd h (by simp)
          · dsimp only at h
            cases hp3 : ff.parse t3 with
            | none => rw [hp3] at h; exact absurd h (by simp)
            | some c =>
              rw [hp3] at h
              simp only [Res.ok.injEq] at h
              exact ⟨⟨a, b, c⟩, h.symm⟩

theorem collect_face_indices_bounded (nv : Nat) : ∀ (toks : List Token)
    (acc face : List Nat), (∀ i ∈ acc, i < nv) →
    collect_face_indices nv toks acc = .ok face → ∀ i ∈ face, i < nv := by
  intro toks
  induction toks with
  | nil =>
    intro acc face hacc h
    rw [collect_face_indices] at h
    simp only [Res.ok.injEq] at h
    exact h ▸ hacc
  | cons t rest ih =>
    intro acc face hacc h
    rw [collect_face_indices] at h
    cases hp : parse_u32 (t.takeWhile (fun c => c ≠ '/')) with
    | none => rw [hp] at h; exact absurd h (by simp)
    | some w =>
      rw [hp] at h
      dsimp only at h
      by_cases hv : (w + (2 ^ 32 - 1)) % 2 ^ 32 < nv
      · rw [if_pos hv] at h
        refine ih (acc ++ [(w + (2 ^ 32 - 1)) % 2 ^ 32]) face ?_ h
        intro i hi
        rcases List.mem_append.mp hi with hi | hi
        · exact hacc i hi
        · simp only [List.mem_singleton] at hi
          exact hi ▸ hv
      · rw [if_neg hv] at h
        exact absurd h (by simp)

theorem process_obj_faces_ok_shape {S : SqrtModel} {m : PolygonMesh}
    {toks : List Token} {m' : PolygonMesh}
    (h : process_obj_faces S m toks = .ok m') :
    ∃ face nrm, (∀ i ∈ face, i < m.vertices.length) ∧
      m'.vertices = m.vertices ∧ m'.faces = m.faces ++ [face] ∧
      m'.face_normals = m.face_normals ++ [nrm] := by
  unfold process_obj_faces at h
  cases hc : collect_face_indices m.vertices.length toks [] with
  | err e => rw [hc] at h; exact absurd h (by simp)
  | panic => exact absurd hc (collect_face_indices_no_panic _ _ _)
  | ok face =>
    rw [hc] at h
    dsimp only at h
    by_cases h3 : face.length < 3
    · rw [if_pos h3] at h
      exact absurd h (by simp)
    · rw [if_neg h3] at h
      cases ha : m.add_face S face none with
      | err e => rw [ha] at h; exact absurd h (by simp)
      | panic => exact absurd ha (add_face_no_panic S m face none (by omega))
      | ok p =>
        rcases p with ⟨m'', i⟩
        rw [ha] at h
        simp only [Res.ok.injEq] at h
        obtain ⟨hv, hf, ⟨nrm, hn⟩, -⟩ := add_face_ok_shape ha
        subst h
        exact ⟨face, nrm,
          collect_face_indices_bounded _ _ _ _ (by simp) hc, hv, hf, hn⟩

theorem mesh_inv_add_vertex {m : PolygonMesh} {v : Point3}
    (h : mesh_inv m = true) :
    mesh_inv { m with vertices := m.vertices ++ [v] } = true := by
  simp only [mesh_inv, Bool.and_eq_true, beq_iff_eq, List.all_eq_true,
    decide_eq_true_eq] at h ⊢
  obtain ⟨h1, h2⟩ := h
  refine ⟨h1, fun f hf i hi => ?_⟩
  have := h2 f hf i hi
  simp only [List.length_append, List.length_singleton]
  omega

theorem mesh_inv_add_face {m : PolygonMesh} {face : List Nat} {nrm : Point3}
    (h : mesh_inv m = true) (hface : ∀ i ∈ face, i < m.vertices.length) :
    mesh_inv { vertices := m.vertices, faces := m.faces ++ [face],
               face_normals := m.face_normals ++ [nrm] } = true := by
  simp only [mesh_inv, Bool.and_eq_true, beq_iff_eq, List.all_eq_true,
    decide_eq_true_eq] at h ⊢
  obtain ⟨h1, h2⟩ := h
  refine ⟨by simp [h1], fun f hf i hi => ?_⟩
  rcases List.mem_append.mp hf with hf | hf
  · exact h2 f hf i hi
  · simp only [List.mem_singleton] at hf
    exact hface i (hf ▸ hi)

theorem load_obj_lines_inv (S : SqrtModel) (ff : FloatFormat) :
    ∀ (lines : List Line) (m0 m : PolygonMesh),
    mesh_inv m0 = true → load_obj_lines S ff lines m0 = .ok m →
    mesh_inv m = true := by
  intro lines
  induction lines with
  | nil =>
    intro m0 m h0 h
    rw [load_obj_lines] at h
    simp only [Res.ok.injEq] at h
    exact h ▸ h0
  | cons line rest ih =>
    intro m0 m h0 h
    rcases line with - | ⟨t, toks⟩
    · rw [load_obj_lines] at h
      exact ih m0 m h0 h
    · rw [load_obj_lines] at h
      by_cases h1 : t = ['v'] ∧ toks ≠ []
      · rw [if_pos h1] at h
        cases hp : process_obj_vertices ff m0 toks with
        | ok m1 =>
          rw [hp] at h
          obtain ⟨v, rfl⟩ := process_obj_vertices_ok_shape hp
          exact ih _ m (mesh_inv_add_vertex h0) h
        | err e => rw [hp] at h; exact absurd h (by simp)
        | panic => exact absurd hp (process_obj_vertices_no_panic ff m0 toks)
      · rw [if_neg h1] at h
        by_cases h2 : t = ['f'] ∧ toks ≠ []
        · rw [if_pos h2] at h
          cases hp : process_obj_faces S m0 toks with
          | ok m1 =>
            rw [hp] at h
            obtain ⟨face, nrm, hface, hv, hf, hn⟩ := process_obj_faces_ok_shape hp
            have hm1 : m1 = ⟨m0.vertices, m0.faces ++ [face],
                m0.face_normals ++ [nrm]⟩ := by
              cases m1
              simp only [PolygonMesh.mk.injEq]
              exact ⟨hv, hf, hn⟩
            have hinv1 : mesh_inv m1 = true := by
              rw [hm1]
              exact mesh_inv_add_face h0 hface
            exact ih m1 m hinv1 h
          | err e => rw [hp] at h; exact absurd h (by simp)
          | panic => exact absurd hp (process_obj_faces_no_panic S m0 toks)
        · rw [if_neg h2] at h
          by_cases h3 : skip_line t = true
          · rw [if_pos h3] at h
            exact ih m0 m h0 h
          · rw [if_neg h3] at h
            exact absurd h (by simp)

/-- C6 (amended): the normal-count-equals-face-count half of the invariant
holds for every mesh reachable by `add_vertex`/`add_face`; the
face-index-in-range half holds for every `load_obj` output (the loader
validates every index), but not for arbitrary `add_face` calls — `add_face`
validates only the first three indices, and none at all when an explicit
normal is supplied. -/
theorem c6_mesh_invariants :
    (∀ m : PolygonMesh, Reachable m → m.face_normals.length = m.faces.length)
    ∧ (∀ (S : SqrtModel) (ff : FloatFormat) (lines : List Line)
        (m : PolygonMesh), load_obj S ff lines = .ok m → mesh_inv m = true) := by
  constructor
  · intro m hm
    induction hm with
    | empty => rfl
    | vertex_step m v hm ih => simpa [PolygonMesh.add_vertex] using ih
    | face_step S m face fn m' i hm hok ih =>
      obtain ⟨hv, hf, ⟨nrm, hn⟩, -⟩ := add_face_ok_shape hok
      rw [hf, hn]
      simp [ih]
  · intro S ff lines m h
    exact load_obj_lines_inv S ff lines ⟨[], [], []⟩ m rfl h

/-- C6 witness: the invariant theorem applied to a mesh reached by one
explicit-normal `add_face`, and to a concrete `load_obj` output. -/
theorem c6_witness :
    (PolygonMesh.mk [] [[0, 1, 2]] [mkp 0 0 1]).face_normals.length =
      (PolygonMesh.mk [] [[0, 1, 2]] [mkp 0 0 1]).faces.length
    ∧ mesh_inv ⟨[], [], []⟩ = true :=
  ⟨c6_mesh_invariants.1 ⟨[], [[0, 1, 2]], [mkp 0 0 1]⟩
      (Reachable.face_step sqrt_model0 ⟨[], [], []⟩ [0, 1, 2] (some (mkp 0 0 1))
        ⟨[], [[0, 1, 2]], [mkp 0 0 1]⟩ 0 Reachable.empty (by decide)),
   c6_mesh_invariants.2 sqrt_model0 decimalFF [] ⟨[], [], []⟩ (by decide)⟩

theorem tri_add_face_some3 (S : SqrtModel) (t : TriangleMesh) (a b c : Nat)
    (nrm : Point3) :
    t.add_face S [a, b, c] (some nrm) =
      .ok ({ vertices := t.vertices, faces := t.faces ++ [(a, b, c)],
             face_normals := t.face_normals ++ [nrm] }, t.faces.length) := by
  simp [TriangleMesh.add_face, TriangleMesh.add_normals]

theorem center_sum_ok (m : PolygonMesh) : ∀ f : List Nat,
    (∀ i ∈ f, i < m.vertices.length) → ∀ acc : Point3,
    ∃ s, center_sum m f acc = .ok s := by
  intro f
  induction f with
  | nil => intro h acc; exact ⟨acc, rfl⟩
  | cons i t ih =>
    intro h acc
    rw [center_sum]
    have hi : i < m.vertices.length := h i (List.mem_cons_self i t)
    cases hv : m.get_vertex i with
    | ok p => exact ih (fun x hx => h x (List.mem_cons_of_mem i hx)) (vadd acc p)
    | err e =>
      exfalso
      unfold PolygonMesh.get_vertex at hv
      rw [List.get?_eq_getElem?, List.getElem?_eq_getElem hi] at hv
      exact absurd hv (by simp)
    | panic => exact absurd hv (get_vertex_ne_panic m i)

theorem fan_fold_ok (S : SqrtModel) (f : List Nat) (nrm : Point3) (c : Nat)
    (hn : 2 ≤ f.length) : ∀ k, k ≤ f.length - 1 → ∀ tm : TriangleMesh,
    ∃ tm', (List.range k).foldl (fan_step S f nrm c) (.ok tm) = .ok tm' := by
  intro k
  induction k with
  | zero => intro hk tm; exact ⟨tm, rfl⟩
  | succ k ih =>
    intro hk tm
    obtain ⟨tm', htm'⟩ := ih (by omega) tm
    rw [List.range_succ, List.foldl_append, htm', List.foldl_cons, List.foldl_nil]
    unfold fan_step
    have hmod : 1 % f.length = 1 := Nat.mod_eq_of_lt (by omega)
    have hk1 : k < f.length := by omega
    have hk2 : k + 1 < f.length := by omega
    rcases hga : f.get? k with - | fi
    · rw [List.get?_eq_getElem?, List.getElem?_eq_getElem hk1] at hga
      exact absurd hga (by simp)
    · rw [hmod]
      rcases hgb : f.get? (k + 1) with - | fj
      · rw [List.get?_eq_getElem?, List.getElem?_eq_getElem hk2] at hgb
        exact absurd hgb (by simp)
      · dsimp only
        rw [tri_add_face_some3]
        exact ⟨_, rfl⟩

theorem fan_fold_panic (S : SqrtModel) (f : List Nat) (nrm : Point3) (c : Nat)
    (hn : 2 ≤ f.length) (tm : TriangleMesh) :
    (List.range f.length).foldl (fan_step S f nrm c) (.ok tm) = .panic := by
  obtain ⟨tm', htm'⟩ := fan_fold_ok S f nrm c hn (f.length - 1) (le_refl _) tm
  have hr : List.range f.length = List.range (f.length - 1) ++ [f.length - 1] := by
    have h' : f.length = (f.length - 1) + 1 := by omega
    conv_lhs => rw [h']
    rw [List.range_succ]
  rw [hr, List.foldl_append, htm', List.foldl_cons, List.foldl_nil]
  unfold fan_step
  have hmod : 1 % f.length = 1 := Nat.mod_eq_of_lt (by omega)
  rcases hga : f.get? (f.length - 1) with - | fi
  · rw [List.get?_eq_getElem?,
      List.getElem?_eq_getElem (show f.length - 1 < f.length by omega)] at hga
  · rw [hmod]
    have hend : f.length - 1 + 1 = f.length := Nat.sub_add_cancel (by omega)
    rw [hend]
    have hnone : f.get? f.length = none := by
      rw [List.get?_eq_getElem?]
      exact List.getElem?_eq_none (le_refl _)
    rw [hnone]

theorem tri_face_step_panic (S : SqrtModel) (m : PolygonMesh)
    (fn : List Nat × Point3) : tri_face_step S m .panic fn = .panic := rfl

theorem foldl_tri_face_step_panic (S : SqrtModel) (m : PolygonMesh) :
    ∀ l : List (List Nat × Point3),
    l.foldl (tri_face_step S m) .panic = .panic := by
  intro l
  induction l with
  | nil => rfl
  | cons a t ih =>
    rw [List.foldl_cons, tri_face_step_panic]
    exact ih

/-- C9 (amended): for every mesh whose first face has at least 2 vertices
with in-range indices (and a parallel normal), `to_triangle_mesh` panics:
`i + 1 % face.len()` groups as `i + 1`, so the fan loop's final iteration
`i = n - 1` indexes position `n` of the face, out of bounds.  (Faces with
fewer than 2 vertices — constructible only via explicit-normal `add_face` —
escape the panic, so the claim's "never returns for ANY mesh with a face"
is too strong; see the counterexample.) -/
theorem c9_to_triangle_mesh_panics (S : SqrtModel) (m : PolygonMesh)
    (f : List Nat) (fs : List (List Nat)) (nrm : Point3) (ns : List Point3)
    (hfaces : m.faces = f :: fs) (hnorms : m.face_normals = nrm :: ns)
    (hlen : 2 ≤ f.length) (hrange : ∀ i ∈ f, i < m.vertices.length) :
    to_triangle_mesh S m = .panic := by
  unfold to_triangle_mesh
  rw [hfaces, hnorms, List.zip_cons_cons, List.foldl_cons]
  have hstep : tri_face_step S m (.ok ⟨m.vertices, [], []⟩) (f, nrm) = .panic := by
    unfold tri_face_step
    obtain ⟨s, hs⟩ := center_sum_ok m f hrange ⟨F.fin 0, F.fin 0, F.fin 0⟩
    rw [hs]
    exact fan_fold_panic S f nrm _ hlen _
  rw [hstep, foldl_tri_face_step_panic]

/-- C9 witness: the amended theorem applied to a concrete mesh with a single
triangular face. -/
theorem c9_witness :
    to_triangle_mesh sqrt_model0
        ⟨[mkp 0 0 0, mkp 1 0 0, mkp 0 1 0], [[0, 1, 2]], [mkp 0 0 1]⟩ =
      .panic :=
  c9_to_triangle_mesh_panics sqrt_model0
    ⟨[mkp 0 0 0, mkp 1 0 0, mkp 0 1 0], [[0, 1, 2]], [mkp 0 0 1]⟩
    [0, 1, 2] [] (mkp 0 0 1) [] rfl rfl (by decide) (by decide)

/-- C9, counterexample to the claim as stated: a `PolygonMesh` with one face
of a single vertex (reachable via explicit-normal `add_face`) has at least
one face, yet `to_triangle_mesh` succeeds on it — for `n = 1` the index
expression `i + 1 % 1 = i + 0` stays in bounds. -/
theorem c9_counterexample :
    to_triangle_mesh sqrt_model0 ⟨[mkp 0 0 0], [[0]], [mkp 1 0 0]⟩ =
      .ok ⟨[mkp 0 0 0, mkp 0 0 0], [(1, 0, 0)], [mkp 1 0 0]⟩ := by
  have hcs : center_sum ⟨[mkp 0 0 0], [[0]], [mkp 1 0 0]⟩ [0]
      ⟨F.fin 0, F.fin 0, F.fin 0⟩ = .ok (mkp 0 0 0) := by
    rw [center_sum,
      show PolygonMesh.get_vertex ⟨[mkp 0 0 0], [[0]], [mkp 1 0 0]⟩ 0 =
        .ok (mkp 0 0 0) from rfl]
    dsimp only
    rw [center_sum]
    simp [vadd, fadd, mkp]
  unfold to_triangle_mesh
  rw [show ([[0]] : List (List Nat)).zip [mkp 1 0 0] = [([0], mkp 1 0 0)] from rfl,
    List.foldl_cons, List.foldl_nil]
  unfold tri_face_step
  dsimp only
  rw [hcs]
  simp [TriangleMesh.add_vertex, List.range_succ, fan_step, List.get?,
    TriangleMesh.add_face, TriangleMesh.add_normals, fdiv, mkp]

/-- `TetrahedralMesh` (src/geometry/discmesh.rs): vertex list plus `[Uint; 3]`
faces. -/
structure TetrahedralMesh where
  vertices : List Point3
  faces : List (Nat × Nat × Nat)

/-- `TetrahedralDiscretizerConfig` (src/geometry/discretizer.rs). -/
structure TetrahedralDiscretizerConfig where
  threshold_angle : F

/-- Modelled from the spec: the discretizer's input-validation failure modes
(spec sections 4.4 and 7).  The repository declares no such error type —
`TetrahedralDiscretizer::discretize` is `todo!()`. -/
inductive DiscretizeError where
  | OpenSurfaceError
  | InconsistentOrientationError
  | DegenerateInputError
deriving DecidableEq

/-- An unordered vertex pair, normalized as (min, max). -/
def edge (a b : Nat) : Nat × Nat := (min a b, max a b)

/-- The three unordered edges of a triangular face. -/
def tri_edges (f : Nat × Nat × Nat) : List (Nat × Nat) :=
  [edge f.1 f.2.1, edge f.2.1 f.2.2, edge f.2.2 f.1]

/-- Modelled from the spec (4.4): "The surface must be closed: every edge
(unordered vertex pair) must be shared by exactly two faces." -/
def is_closed (faces : List (Nat × Nat × Nat)) : Bool :=
  faces.all (fun f => (tri_edges f).all (fun e =>
    faces.countP (fun g => e ∈ tri_edges g) == 2))

/-- All directed edges traversed by the faces, in face order. -/
def directed_edges (faces : List (Nat × Nat × Nat)) : List (Nat × Nat) :=
  faces.flatMap (fun f => [(f.1, f.2.1), (f.2.1, f.2.2), (f.2.2, f.1)])

/-- Modelled from the spec (4.4): consistent orientation — no directed edge
is traversed twice, so the two faces sharing an undirected edge of a closed
surface traverse it in opposite directions. -/
def is_consistently_oriented (faces : List (Nat × Nat × Nat)) : Bool :=
  (directed_edges faces).all (fun e => (directed_edges faces).count e == 1)

/-- Modelled from the spec (4.4): coincident vertices; the spec's numeric
tolerance is left at exact coincidence. -/
def has_coincident_vertices : List Point3 → Bool
  | [] => false
  | v :: rest => rest.any (fun w => point_eq v w) || has_coincident_vertices rest

/-- Modelled from the spec (4.4): `discretize` checks its preconditions
before construction begins, in the order the spec lists them — closed
surface, consistent orientation, no coincident vertices — and only then
runs the Delaunay construction.  The construction itself is the parameter
`build`: the repository's `discretize` body is `todo!()`, and spec section 9
marks the algorithm as a design reconstruction, so nothing is assumed about
it — the validation result holds for every construction back-end. -/
def discretize
    (build : TriangleMesh → TetrahedralDiscretizerConfig → TetrahedralMesh)
    (polymesh : TriangleMesh) (config : TetrahedralDiscretizerConfig) :
    Except DiscretizeError TetrahedralMesh :=
  if ¬ is_closed polymesh.faces then .error .OpenSurfaceError
  else if ¬ is_consistently_oriented polymesh.faces then
    .error .InconsistentOrientationError
  else if has_coincident_vertices polymesh.vertices then
    .error .DegenerateInputError
  else .ok (build polymesh config)

/-- C2: for every surface that is not closed — some edge of some face is
shared by a number of faces other than exactly two — `discretize` fails
with `OpenSurfaceError` before construction begins (for every construction
back-end `build`), rather than returning a volumetric mesh. -/
theorem c2_open_surface_rejected
    (build : TriangleMesh → TetrahedralDiscretizerConfig → TetrahedralMesh)
    (m : TriangleMesh) (config : TetrahedralDiscretizerConfig)
    (h : ∃ f ∈ m.faces, ∃ e ∈ tri_edges f,
        m.faces.countP (fun g => e ∈ tri_edges g) ≠ 2) :
    discretize build m config = .error .OpenSurfaceError := by
  have hc : ¬ is_closed m.faces = true := by
    intro hall
    obtain ⟨f, hf, e, he, hcount⟩ := h
    rw [is_closed, List.all_eq_true] at hall
    have h1 := hall f hf
    rw [List.all_eq_true] at h1
    have h2 := h1 e he
    rw [beq_iff_eq] at h2
    exact hcount h2
  unfold discretize
  rw [if_pos hc]

/-- The unit-cube surface missing its twelfth triangle: 8 corner vertices,
11 of the 12 triangular faces. -/
def cube11 : TriangleMesh :=
  ⟨[mkp 0 0 0, mkp 1 0 0, mkp 1 1 0, mkp 0 1 0,
    mkp 0 0 1, mkp 1 0 1, mkp 1 1 1, mkp 0 1 1],
   [(0, 2, 1), (0, 3, 2), (4, 5, 6), (4, 6, 7), (0, 1, 5), (0, 5, 4),
    (1, 2, 6), (1, 6, 5), (2, 3, 7), (2, 7, 6), (3, 0, 4)],
   []⟩

/-- C2 witness: the rejection theorem applied to the 11-face cube — the
edge {3,4} of the remaining face `(3,0,4)` is shared by only one face. -/
theorem c2_witness :
    discretize (fun _ _ => ⟨[], []⟩) cube11 ⟨F.fin 0⟩ =
      .error .OpenSurfaceError :=
  c2_open_surface_rejected (fun _ _ => ⟨[], []⟩) cube11 ⟨F.fin 0⟩
    ⟨(3, 0, 4), by decide, (3, 4), by decide, by decide⟩

end Rasterflow
